import Mathlib

/-!
# TrustLog backend: a shallow embedding with verified properties

This file embeds the data model and request handlers of the TrustLog
incident-log backend (`trustlog_backend/`): record CRUD with file
attachments behind a session gate.  Pure helpers (`allowed_file`,
`secure_filename`, JSON encode/decode of the `impact_types` list) are
translated directly from the Python source; each stateful handler becomes a
pure function from an explicit system state (database tables plus the set of
file paths on disk) and request data to a response and a new state.
Library collaborators (`json`, `werkzeug.utils.secure_filename`) are
modelled by executable definitions whose doc comments state the exact scope
of the model.
-/

namespace TrustLog

/-! ## Character and string primitives

The embedding works on `String.data : List Char` throughout, with
structurally recursive helpers, so that every definition evaluates inside
the kernel.  ASCII case mapping models Python `str.lower`/`str.upper`
exactly on ASCII input.
-/

/-- ASCII lower-casing of one character (models Python `str.lower` on ASCII). -/
def asciiLower (c : Char) : Char :=
  if 'A' ≤ c && c ≤ 'Z' then Char.ofNat (c.toNat + 32) else c

/-- ASCII upper-casing of one character (models Python `str.upper` on ASCII). -/
def asciiUpper (c : Char) : Char :=
  if 'a' ≤ c && c ≤ 'z' then Char.ofNat (c.toNat - 32) else c

/-- Lower-case a string, ASCII-wise: models Python `str.lower` for ASCII strings. -/
def lowerStr (s : String) : String := ⟨s.data.map asciiLower⟩

/-- Upper-case a string, ASCII-wise: models Python `str.upper` for ASCII strings. -/
def upperStr (s : String) : String := ⟨s.data.map asciiUpper⟩

/-- Split a character list on a separator character; models Python
`str.split(sep)` (keeps empty pieces). -/
def splitOnChar (sep : Char) : List Char → List (List Char)
  | [] => [[]]
  | c :: cs =>
    match splitOnChar sep cs with
    | [] => [[c]]
    | h :: t => if c = sep then [] :: h :: t else (c :: h) :: t

/-- The substring after the last `sep`; models Python `s.rsplit(sep, 1)[1]`
(meaningful only when `sep` occurs in `s`). -/
def afterLast (sep : Char) (s : String) : String :=
  ⟨(splitOnChar sep s.data).getLastD []⟩

/-- Strict lexicographic order on character lists by code point.  This is the
order SQLite's default BINARY collation induces on TEXT values (memcmp on
UTF-8 agrees with code-point order). -/
def lexLt : List Char → List Char → Bool
  | [], [] => false
  | [], _ :: _ => true
  | _ :: _, [] => false
  | a :: as, b :: bs =>
    if a.toNat < b.toNat then true
    else if b.toNat < a.toNat then false
    else lexLt as bs

/-- String comparison under SQLite BINARY collation: `a < b`. -/
def strLt (a b : String) : Bool := lexLt a.data b.data

/-- String comparison under SQLite BINARY collation: `a ≤ b`. -/
def strLe (a b : String) : Bool := !(strLt b a)

/-! ## JSON for lists of strings

The handlers call Python `json.dumps` on the parsed `impact_types` list and
`json.loads` on the stored text.  `dumpsStrArray` models `json.dumps` on a
list of strings: elements joined by `", "` inside brackets, each element
quoted with `"` / `\` / control characters escaped exactly as the library
escapes them (`\"`, `\\`, `\b`, `\f`, `\n`, `\r`, `\t`, `\u00XX` with
lower-case hex for the remaining code points below 0x20).  Characters at or
above 0x20 are emitted literally; the real library writes non-ASCII
characters as `\uXXXX` escapes, which decode to the same characters, so the
serialize/parse round trip is unaffected.  `parseStrArray` models
`json.loads` restricted to documents denoting arrays of strings (the domain
every theorem below quantifies over); it accepts the JSON whitespace and
escape forms, and rejects lone `\uXXXX` surrogate escapes, which the model
does not represent. -/

/-- Lower-case hexadecimal digit for `n < 16`. -/
def hexDigitChar (n : Nat) : Char :=
  if n < 10 then Char.ofNat (48 + n) else Char.ofNat (87 + n)

/-- Numeric value of a hexadecimal digit character, if any. -/
def hexVal (c : Char) : Option Nat :=
  if '0' ≤ c && c ≤ '9' then some (c.toNat - 48)
  else if 'a' ≤ c && c ≤ 'f' then some (c.toNat - 87)
  else if 'A' ≤ c && c ≤ 'F' then some (c.toNat - 55)
  else none

/-- How Python `json.dumps` writes one character inside a JSON string. -/
def escapeChar (c : Char) : List Char :=
  if c = '"' then ['\\', '"']
  else if c = '\\' then ['\\', '\\']
  else if c = '\n' then ['\\', 'n']
  else if c = '\r' then ['\\', 'r']
  else if c = '\t' then ['\\', 't']
  else if c = Char.ofNat 8 then ['\\', 'b']
  else if c = Char.ofNat 12 then ['\\', 'f']
  else if c.toNat < 32 then
    ['\\', 'u', '0', '0', hexDigitChar (c.toNat / 16), hexDigitChar (c.toNat % 16)]
  else [c]

/-- The escaped body of a JSON string. -/
def encodeString : List Char → List Char
  | [] => []
  | c :: cs => escapeChar c ++ encodeString cs

/-- One quoted JSON string element. -/
def encElem (s : String) : List Char := '"' :: (encodeString s.data ++ ['"'])

/-- The tail of a serialized array after its first element: `", e"` groups and
the closing bracket (Python `json.dumps` uses `", "` as the item separator). -/
def encTail : List String → List Char
  | [] => [']']
  | s :: rest => ',' :: ' ' :: (encElem s ++ encTail rest)

/-- Model of Python `json.dumps` on a list of strings. -/
def dumpsStrArray (l : List String) : String :=
  match l with
  | [] => "[]"
  | s :: rest => ⟨'[' :: (encElem s ++ encTail rest)⟩

/-- JSON whitespace accepted between tokens. -/
def isJsonWs (c : Char) : Bool := c = ' ' || c = '\t' || c = '\n' || c = '\r'

/-- Drop leading JSON whitespace. -/
def skipWs : List Char → List Char
  | [] => []
  | c :: cs => if isJsonWs c then skipWs cs else c :: cs

/-- Prepend a decoded character to the result of scanning the rest of a
JSON string body. -/
def consScan (c : Char) : Option (List Char × List Char) → Option (List Char × List Char)
  | none => none
  | some (s, r) => some (c :: s, r)

/-- Scan a JSON string body (the opening quote already consumed) up to the
closing quote, decoding escapes the way Python `json.loads` does; raw
control characters below 0x20 are rejected, as is any escape other than
`\" \\ \/ \b \f \n \r \t \uXXXX`. -/
def scanStr : List Char → Option (List Char × List Char)
  | [] => none
  | c :: cs =>
    if c = '"' then some ([], cs)
    else if c = '\\' then
      match cs with
      | [] => none
      | e :: cs1 =>
        if e = '"' then consScan '"' (scanStr cs1)
        else if e = '\\' then consScan '\\' (scanStr cs1)
        else if e = '/' then consScan '/' (scanStr cs1)
        else if e = 'b' then consScan (Char.ofNat 8) (scanStr cs1)
        else if e = 'f' then consScan (Char.ofNat 12) (scanStr cs1)
        else if e = 'n' then consScan '\n' (scanStr cs1)
        else if e = 'r' then consScan '\r' (scanStr cs1)
        else if e = 't' then consScan '\t' (scanStr cs1)
        else if e = 'u' then
          match cs1 with
          | h1 :: h2 :: h3 :: h4 :: cs2 =>
            match hexVal h1, hexVal h2, hexVal h3, hexVal h4 with
            | some a, some b, some c3, some d =>
              let n := ((a * 16 + b) * 16 + c3) * 16 + d
              if n.isValidChar then consScan (Char.ofNat n) (scanStr cs2) else none
            | _, _, _, _ => none
          | _ => none
        else none
    else if c.toNat < 32 then none
    else consScan c (scanStr cs)

/-- Scan the elements of a JSON array of strings, positioned at the start of
an element; returns the elements and the remainder after the closing
bracket.  Fuel bounds the recursion; every caller passes more fuel than the
number of characters left, which scanning one element always decreases. -/
def scanElems : Nat → List Char → Option (List (List Char) × List Char)
  | 0, _ => none
  | fuel + 1, cs =>
    match cs with
    | [] => none
    | c :: cs1 =>
      if c = '"' then
        match scanStr cs1 with
        | none => none
        | some (s, cs2) =>
          match skipWs cs2 with
          | [] => none
          | d :: cs4 =>
            if d = ',' then
              match scanElems fuel (skipWs cs4) with
              | some (elems, rest) => some (s :: elems, rest)
              | none => none
            else if d = ']' then some ([s], cs4)
            else none
      else none

/-- After the opening bracket (whitespace skipped): an immediate `]` is the
empty array, otherwise scan the elements. -/
def parseAfterBracket : List Char → Option (List String)
  | [] => none
  | d :: cs3 =>
    if d = ']' then (if skipWs cs3 = [] then some [] else none)
    else
      match scanElems ((d :: cs3).length + 1) (d :: cs3) with
      | some (elems, rest) =>
        if skipWs rest = [] then some (elems.map (fun e => ⟨e⟩)) else none
      | none => none

/-- The document must begin (after whitespace) with `[`. -/
def parseTop : List Char → Option (List String)
  | [] => none
  | c :: cs1 => if c = '[' then parseAfterBracket (skipWs cs1) else none

/-- Model of Python `json.loads` restricted to documents denoting arrays of
strings (see the section comment for the exact scope). -/
def parseStrArray (s : String) : Option (List String) :=
  parseTop (skipWs s.data)

/-! ## Extension allow-list and filename sanitizing -/

/-- The upload-extension allow-list from `trustlog_backend/config.py`
(`Config.ALLOWED_EXTENSIONS`; a Python set, held here as a list). -/
def ALLOWED_EXTENSIONS : List String :=
  ["png", "jpg", "jpeg", "gif", "pdf", "doc", "docx", "txt"]

/-- The upload root from `trustlog_backend/config.py` (`Config.UPLOAD_FOLDER`). -/
def UPLOAD_FOLDER : String := "uploads"

/-- From `trustlog_backend/allowed_file.py`: a filename is allowed when it
contains a `.` and the substring after the last `.`, lower-cased, is in
`ALLOWED_EXTENSIONS`. -/
def allowed_file (filename : String) : Bool :=
  filename.data.contains '.' &&
    decide (lowerStr (afterLast '.' filename) ∈ ALLOWED_EXTENSIONS)

/-- Python `str.split()` with no argument: split on whitespace runs,
dropping empty pieces (ASCII whitespace modelled). -/
def isPyWs (c : Char) : Bool :=
  c = ' ' || c = '\t' || c = '\n' || c = '\r' || c = Char.ofNat 11 || c = Char.ofNat 12

/-- The words of a character list under Python `str.split()`. -/
def pySplit : List Char → List (List Char)
  | [] => []
  | c :: rest =>
    if isPyWs c then pySplit rest
    else
      match rest with
      | [] => [[c]]
      | d :: _ =>
        if isPyWs d then [c] :: pySplit rest
        else
          match pySplit rest with
          | [] => [[c]]
          | w :: ws => (c :: w) :: ws

/-- Join words with a separator character. -/
def joinWith (sep : Char) : List (List Char) → List Char
  | [] => []
  | [w] => w
  | w :: ws => w ++ sep :: joinWith sep ws

/-- Characters `werkzeug.utils.secure_filename` keeps: ASCII alphanumerics
and `_ . -`. -/
def isSecureChar (c : Char) : Bool :=
  ('a' ≤ c && c ≤ 'z') || ('A' ≤ c && c ≤ 'Z') || ('0' ≤ c && c ≤ '9') ||
    c = '_' || c = '.' || c = '-'

/-- Strip `.` and `_` from both ends (Python `str.strip("._")`). -/
def stripDotUnderscore (cs : List Char) : List Char :=
  ((cs.dropWhile (fun c => c = '.' || c = '_')).reverse.dropWhile
      (fun c => c = '.' || c = '_')).reverse

/-- Model of `werkzeug.utils.secure_filename` on POSIX, exact for ASCII
filenames: NFKD normalization followed by ASCII-encode-with-ignore is
modelled as dropping non-ASCII characters (the identity on ASCII); `os.sep`
(`/`) becomes a space; whitespace-separated words are re-joined with `_`;
characters outside `[A-Za-z0-9_.-]` are dropped; leading and trailing `.`
and `_` are stripped.  The Windows device-name branch is inactive because
`os.name` is not `nt`. -/
def secure_filename (s : String) : String :=
  let ascii := s.data.filter (fun c => c.toNat < 128)
  let nosep := ascii.map (fun c => if c = '/' then ' ' else c)
  ⟨stripDotUnderscore ((joinWith '_' (pySplit nosep)).filter isSecureChar)⟩

/-! ## Data model

The three tables from `trustlog_backend/database.py`, and the system state a
handler acts on: the database plus the set of file paths present on disk
(the upload tree, directories not modelled).  `next_log_id` / `next_att_id`
model the AUTOINCREMENT id generators (`cursor.lastrowid`). -/

/-- A row of the `log_records` table. -/
structure LogRecordRow where
  id : Nat
  date_of_incident : String
  time_of_incident : Option String
  category : String
  description_of_incident : String
  /-- serialized text, as persisted (`impact_types TEXT NOT NULL`) -/
  impact_types : String
  impact_details : Option String
  supporting_evidence_snippet : Option String
  exhibit_reference : Option String
  created_at : String
deriving DecidableEq, Repr

/-- A row of the `attachments` table. -/
structure AttachmentRow where
  id : Nat
  log_record_id : Nat
  filename : String
  stored_filename : String
  filepath : String
  filetype : String
  filesize_bytes : Nat
  upload_date : String
deriving DecidableEq, Repr

/-- The database: the two tables the log routes touch, with their id
generators. -/
structure DB where
  log_records : List LogRecordRow
  attachments : List AttachmentRow
  next_log_id : Nat
  next_att_id : Nat
deriving DecidableEq, Repr

/-- Database plus upload tree: `disk` is the set (as a list) of full file
paths present under the process working directory. -/
structure Sys where
  db : DB
  disk : List String
deriving DecidableEq, Repr

/-- The multipart form fields of a create/update request (`request.form`):
`none` means the field is absent. -/
structure FormData where
  date_of_incident : Option String
  time_of_incident : Option String
  category : Option String
  description_of_incident : Option String
  impact_types : Option String
  impact_details : Option String
  supporting_evidence_snippet : Option String
  exhibit_reference : Option String
deriving DecidableEq, Repr

/-- One `files` part of a multipart request: the client-supplied filename
and content type, and the number of bytes `file.save` writes (which
`os.path.getsize` then measures). -/
structure FilePart where
  filename : String
  content_type : String
  size : Nat
deriving DecidableEq, Repr

/-- Per-request environment: the stream of fresh names `uuid.uuid4()`
draws (one per saved file), the date bucket `datetime.now().strftime("%Y/%m")`,
and the server-clock text the database writes into `created_at` /
`upload_date` columns. -/
structure Env where
  uuids : Nat → String
  today : String
  now : String

/-- A JSON value as it appears in a response body (only the shapes these
handlers produce). -/
inductive JVal where
  | s (v : String)
  | n (v : Nat)
  | arr (v : List String)
  | null
deriving DecidableEq, Repr

/-- An optional TEXT column rendered into a response dict. -/
def optJ : Option String → JVal
  | none => JVal.null
  | some v => JVal.s v

/-! ## Handlers (`trustlog_backend/routes/logs.py`)

Each handler is a pure function; the transaction discipline of the source
(`BEGIN` / `COMMIT` / `ROLLBACK` plus deletion of files already written in
the failed request) appears as: the success branch returns the drafted
state, every error branch returns the original database together with the
request's disk writes removed. -/

/-- Result of `POST /log_records` (`create_log_record`): 201 with the new
id, 400 with the `ValueError` message, or 500. -/
inductive CreateResult where
  | created (id : Nat)
  | badRequest (msg : String)
  | serverError
deriving DecidableEq, Repr

/-- Result of `PUT /log_records/{id}` (`update_log_record`). -/
inductive UpdateResult where
  | updated
  | notFound
  | badRequest (msg : String)
  | serverError
deriving DecidableEq, Repr

/-- Result of `DELETE /log_records/{id}` (`delete_log_record`). -/
inductive DeleteResult where
  | deleted
  | notFound
deriving DecidableEq, Repr

/-- Result of `GET /log_records/{id}` (`get_log_record_by_id`): the
response dict, 404, or 500 (the catch-all `except Exception`). -/
inductive GetResult where
  | ok (body : List (String × JVal))
  | notFound
  | serverError
deriving DecidableEq, Repr

/-- Result of `GET /log_records` (`get_log_records`). -/
inductive ListResult where
  | ok (rows : List (List (String × JVal)))
  | badRequest (msg : String)
  | serverError
deriving DecidableEq, Repr

/-- The mandatory-field loop shared by create and update: the first of
`date_of_incident, category, description_of_incident, impact_types` that is
absent or empty yields the `ValueError` message, in source order. -/
def requiredFieldsCheck (form : FormData) : Option String :=
  if form.date_of_incident.getD "" = "" then
    some "Missing or empty required field: date_of_incident"
  else if form.category.getD "" = "" then
    some "Missing or empty required field: category"
  else if form.description_of_incident.getD "" = "" then
    some "Missing or empty required field: description_of_incident"
  else if form.impact_types.getD "" = "" then
    some "Missing or empty required field: impact_types"
  else none

/-- Models `if supporting_evidence_snippet == 'null': supporting_evidence_snippet = None`. -/
def normNullStr : Option String → Option String
  | some v => if v = "null" then none else some v
  | none => none

/-- What processing one `files` part can abort with: the extension
`ValueError` (→ 400) or the `IndexError` from
`secured_filename.rsplit('.', 1)[1]` when the sanitized name has no dot
(→ the catch-all 500). -/
inductive LoopErr where
  | valErr (msg : String)
  | idxErr
deriving DecidableEq, Repr

/-- State carried through the file-upload loop: the drafted database, the
disk, the request's cleanup list `temp_saved_files`, and how many fresh
names have been drawn. -/
structure LoopState where
  db : DB
  disk : List String
  saved : List String
  k : Nat
deriving DecidableEq, Repr

/-- Processing one accepted file part: write the file, extend the cleanup
list, insert the `attachments` row, advance the fresh-name counter. -/
def saveStep (logId : Nat) (env : Env) (f : FilePart) (st : LoopState) : LoopState :=
  let ext := lowerStr (afterLast '.' (secure_filename f.filename))
  let unique := env.uuids st.k ++ "." ++ ext
  let relpath := env.today ++ "/" ++ unique
  let full := UPLOAD_FOLDER ++ "/" ++ relpath
  let att : AttachmentRow :=
    { id := st.db.next_att_id, log_record_id := logId,
      filename := f.filename, stored_filename := unique,
      filepath := relpath, filetype := f.content_type,
      filesize_bytes := f.size, upload_date := env.now }
  let db2 : DB :=
    { st.db with attachments := st.db.attachments ++ [att],
                 next_att_id := st.db.next_att_id + 1 }
  { db := db2, disk := st.disk ++ [full], saved := st.saved ++ [full],
    k := st.k + 1 }

/-- The `for file in files` loop of `create_log_record` /
`update_log_record`: skip parts with an empty filename; reject parts
failing `allowed_file` with the `ValueError` whose message starts with
`msgPre`; abort with the `IndexError` when the sanitized name of an
accepted part has no dot; otherwise save the file and insert its row. -/
def processFiles (logId : Nat) (msgPre : String) (env : Env) :
    List FilePart → LoopState → LoopState × Option LoopErr
  | [], st => (st, none)
  | f :: rest, st =>
    if f.filename = "" then processFiles logId msgPre env rest st
    else if !(allowed_file f.filename) then
      (st, some (.valErr (msgPre ++ f.filename)))
    else if !((secure_filename f.filename).data.contains '.') then (st, some .idxErr)
    else processFiles logId msgPre env rest (saveStep logId env f st)

/-- The rollback cleanup `for fpath in temp_saved_files: os.remove(fpath)`:
every path in the request's cleanup list disappears from disk. -/
def cleanupDisk (disk saved : List String) : List String :=
  disk.filter (fun p => !(decide (p ∈ saved)))

/-- The `log_records` row create inserts. -/
def draftRow (form : FormData) (impact : List String) (logId : Nat) (now : String) :
    LogRecordRow :=
  { id := logId,
    date_of_incident := form.date_of_incident.getD "",
    time_of_incident := form.time_of_incident,
    category := form.category.getD "",
    description_of_incident := form.description_of_incident.getD "",
    impact_types := dumpsStrArray impact,
    impact_details := form.impact_details,
    supporting_evidence_snippet := normNullStr form.supporting_evidence_snippet,
    exhibit_reference := form.exhibit_reference,
    created_at := now }

/-- Loop state right after create's INSERT: the drafted row appended, the
disk untouched, the cleanup list empty. -/
def createStart (sys : Sys) (form : FormData) (impact : List String) (env : Env) :
    LoopState :=
  ⟨{ sys.db with
      log_records := sys.db.log_records ++
        [draftRow form impact sys.db.next_log_id env.now],
      next_log_id := sys.db.next_log_id + 1 },
    sys.disk, [], 0⟩

/-- Handler for `POST /log_records` (`create_log_record` in
`trustlog_backend/routes/logs.py`): validate the mandatory fields, parse
`impact_types`, insert the `log_records` row, run the file loop; commit on
success, otherwise roll the database back and delete this request's files. -/
def create_log_record (sys : Sys) (form : FormData) (files : List FilePart)
    (env : Env) : CreateResult × Sys :=
  match requiredFieldsCheck form with
  | some msg => (.badRequest msg, sys)
  | none =>
    match parseStrArray (form.impact_types.getD "") with
    | none => (.badRequest "impact_types must be a valid JSON array string", sys)
    | some impact =>
      match processFiles sys.db.next_log_id "File type not allowed for: " env files
          (createStart sys form impact env) with
      | (st, none) => (.created sys.db.next_log_id, ⟨st.db, st.disk⟩)
      | (st, some (.valErr msg)) =>
        (.badRequest msg, ⟨sys.db, cleanupDisk st.disk st.saved⟩)
      | (st, some .idxErr) =>
        (.serverError, ⟨sys.db, cleanupDisk st.disk st.saved⟩)

/-- Build the response dict for one `log_records` row: `dict(record)` in
column order, with `impact_types` deserialized (`[]` when the stored text is
empty, `json.loads` otherwise; an unparseable stored value raises and lands
in the catch-all 500, signalled here by `none`). -/
def recordDict (r : LogRecordRow) : Option (List (String × JVal)) :=
  let imp : Option JVal :=
    if r.impact_types = "" then some (.arr [])
    else (parseStrArray r.impact_types).map .arr
  imp.map (fun v =>
    [("id", .n r.id),
     ("date_of_incident", .s r.date_of_incident),
     ("time_of_incident", optJ r.time_of_incident),
     ("category", .s r.category),
     ("description_of_incident", .s r.description_of_incident),
     ("impact_types", v),
     ("impact_details", optJ r.impact_details),
     ("supporting_evidence_snippet", optJ r.supporting_evidence_snippet),
     ("exhibit_reference", optJ r.exhibit_reference),
     ("created_at", .s r.created_at)])

/-- Handler for `GET /log_records/{id}` (`get_log_record_by_id`): `SELECT * FROM
log_records WHERE id = ?`, 404 when absent, otherwise the dict with
`impact_types` expanded.  The query selects only `lr.*` — no attachment
data. -/
def get_log_record_by_id (db : DB) (logId : Nat) : GetResult :=
  match db.log_records.find? (fun r => r.id = logId) with
  | none => .notFound
  | some r =>
    match recordDict r with
    | some d => .ok d
    | none => .serverError

/-- Query parameters of `GET /log_records`. -/
structure ListParams where
  category : Option String
  start_date : Option String
  end_date : Option String
  sort_by : Option String
  sort_order : Option String
deriving DecidableEq, Repr

/-- The allow-list `valid_sort_columns`. -/
def valid_sort_columns : List String := ["date_of_incident", "category", "created_at"]

/-- The dynamically chosen ORDER BY column. -/
def sortKey (col : String) (r : LogRecordRow) : String :=
  if col = "category" then r.category
  else if col = "created_at" then r.created_at
  else r.date_of_incident

/-- The row order `ORDER BY lr.<col> <dir>, lr.created_at DESC` induces:
primary key in the requested direction, ties broken by `created_at`
descending. -/
def rowLe (col : String) (descOrder : Bool) (a b : LogRecordRow) : Bool :=
  if sortKey col a = sortKey col b then strLe b.created_at a.created_at
  else if descOrder then strLt (sortKey col b) (sortKey col a)
  else strLt (sortKey col a) (sortKey col b)

/-- The WHERE clause built from the query parameters; a filter is appended
only when its parameter is present and non-empty (Python truthiness of
`request.args.get`). -/
def passesFilters (p : ListParams) (r : LogRecordRow) : Bool :=
  (match p.category with
   | none => true
   | some c => if c = "" then true else r.category = c) &&
  (match p.start_date with
   | none => true
   | some d => if d = "" then true else strLe d r.date_of_incident) &&
  (match p.end_date with
   | none => true
   | some d => if d = "" then true else strLe r.date_of_incident d)

/-- `COUNT(a.id)` of the `LEFT JOIN attachments GROUP BY lr.id`: the number
of attachment rows referencing the record. -/
def attCount (db : DB) (logId : Nat) : Nat :=
  (db.attachments.filter (fun a => a.log_record_id = logId)).length

/-- Insert into a list sorted by `le` (insertion step of a comparison sort;
which stable sort the SQL engine uses is unobservable through ORDER BY). -/
def insertLe (le : LogRecordRow → LogRecordRow → Bool) (a : LogRecordRow) :
    List LogRecordRow → List LogRecordRow
  | [] => [a]
  | b :: bs => if le a b then a :: b :: bs else b :: insertLe le a bs

/-- Sort rows by `le` (models the ORDER BY clause). -/
def sortRows (le : LogRecordRow → LogRecordRow → Bool) :
    List LogRecordRow → List LogRecordRow
  | [] => []
  | a :: as => insertLe le a (sortRows le as)

/-- The rows the list query returns, in order. -/
def listQueryRows (db : DB) (p : ListParams) (col : String) (descOrder : Bool) :
    List LogRecordRow :=
  sortRows (rowLe col descOrder) (db.log_records.filter (passesFilters p))

/-- The response dict of one listed row: the record columns plus the
aggregate `attachment_count`. -/
def listedDict (db : DB) (r : LogRecordRow) : Option (List (String × JVal)) :=
  (recordDict r).map (fun d => d ++ [("attachment_count", .n (attCount db r.id))])

/-- Render the fetched rows one after the other, as the response-building
loop does; a row whose stored `impact_types` fails to parse aborts the whole
response (the catch-all 500). -/
def renderRows (db : DB) : List LogRecordRow → Option (List (List (String × JVal)))
  | [] => some []
  | r :: rs =>
    match listedDict db r, renderRows db rs with
    | some b, some bs => some (b :: bs)
    | _, _ => none

/-- Handler for `GET /log_records` (`get_log_records`): reject a `sort_by` outside the
allow-list, then a `sort_order` other than asc/desc (default `desc`,
upper-cased), before touching the tables; then filter, count attachments,
order, and render each row. -/
def get_log_records (db : DB) (p : ListParams) : ListResult :=
  let sortBy := p.sort_by.getD "date_of_incident"
  let so := upperStr (p.sort_order.getD "desc")
  if !(decide (sortBy ∈ valid_sort_columns)) then
    .badRequest ("Invalid sort_by column: " ++ sortBy)
  else if !(so = "ASC" || so = "DESC") then
    .badRequest ("Invalid sort_order: " ++ so)
  else
    match renderRows db (listQueryRows db p sortBy (so = "DESC")) with
    | some bodies => .ok bodies
    | none => .serverError

/-- The UPDATE's full replacement of every mutable column of one row
(id and `created_at` are not in the SET list). -/
def replaceRow (form : FormData) (impact : List String) (r : LogRecordRow) :
    LogRecordRow :=
  { r with
    date_of_incident := form.date_of_incident.getD "",
    time_of_incident := form.time_of_incident,
    category := form.category.getD "",
    description_of_incident := form.description_of_incident.getD "",
    impact_types := dumpsStrArray impact,
    impact_details := form.impact_details,
    supporting_evidence_snippet := normNullStr form.supporting_evidence_snippet,
    exhibit_reference := form.exhibit_reference }

/-- Loop state right after the UPDATE statement ran. -/
def updateStart (sys : Sys) (logId : Nat) (form : FormData) (impact : List String) :
    LoopState :=
  ⟨{ sys.db with
      log_records := sys.db.log_records.map (fun r =>
        if r.id = logId then replaceRow form impact r else r) },
    sys.disk, [], 0⟩

/-- Handler for `PUT /log_records/{id}` (`update_log_record`): 404 when the id is
absent (checked before validation); otherwise validate, full-replace every
mutable column of the row (id and `created_at` persist), run the file loop
for new attachments, commit or roll back exactly as create does. -/
def update_log_record (sys : Sys) (logId : Nat) (form : FormData)
    (files : List FilePart) (env : Env) : UpdateResult × Sys :=
  if !(sys.db.log_records.any (fun r => r.id = logId)) then (.notFound, sys)
  else
    match requiredFieldsCheck form with
    | some msg => (.badRequest msg, sys)
    | none =>
      match parseStrArray (form.impact_types.getD "") with
      | none => (.badRequest "impact_types must be a valid JSON array string", sys)
      | some impact =>
        match processFiles logId "File type not allowed for new attachment: " env
            files (updateStart sys logId form impact) with
        | (st, none) => (.updated, ⟨st.db, st.disk⟩)
        | (st, some (.valErr msg)) =>
          (.badRequest msg, ⟨sys.db, cleanupDisk st.disk st.saved⟩)
        | (st, some .idxErr) =>
          (.serverError, ⟨sys.db, cleanupDisk st.disk st.saved⟩)

/-- The full on-disk path of an attachment
(`os.path.join(Config.UPLOAD_FOLDER, att['filepath'])`). -/
def attFullPath (a : AttachmentRow) : String := UPLOAD_FOLDER ++ "/" ++ a.filepath

/-- Handler for `DELETE /log_records/{id}` (`delete_log_record`): inside a transaction,
delete the record's attachment rows and the record itself — rolled back
with a 404 when the record row never existed — then commit and remove each
listed file from disk (directory pruning is not modelled; it touches no
file). -/
def delete_log_record (sys : Sys) (logId : Nat) : DeleteResult × Sys :=
  let atts := sys.db.attachments.filter (fun a => a.log_record_id = logId)
  if sys.db.log_records.any (fun r => r.id = logId) then
    let db1 : DB :=
      { sys.db with
        log_records := sys.db.log_records.filter (fun r => !(r.id = logId)),
        attachments := sys.db.attachments.filter (fun a => !(a.log_record_id = logId)) }
    let disk1 := sys.disk.filter (fun p => !(atts.any (fun a => attFullPath a = p)))
    (.deleted, ⟨db1, disk1⟩)
  else (.notFound, sys)

/-- Handler for `GET /log_records/{id}/attachments` (`get_log_record_attachments`):
all attachment rows of the record, unfiltered. -/
def get_log_record_attachments (db : DB) (logId : Nat) : List AttachmentRow :=
  db.attachments.filter (fun a => a.log_record_id = logId)

/-! ## Session gate and route table

`flask_login.login_required` rejects a request with the JSON 401 from the
`unauthorized_handler` before the view function body runs.  Which handlers
carry the decorator is read off the source; the mapping of public URLs onto
the two blueprints' handlers is not in `src/` (no app factory registers
`auth_bp`/`logs_bp`), so the URL map is modelled from the spec where
a theorem needs it. -/

/-- The view functions of the application, across `auth.py` and
`routes/logs.py` (the `config/allowed_extensions` view exists in both
files). -/
inductive Endpoint where
  | createLog
  | listLogs
  | getLog
  | updateLog
  | deleteLog
  | downloadAttachment
  | deleteAttachment
  | listAttachments
  | logsAllowedExtensions
  | authAllowedExtensions
  | registerUser
  | loginUser
  | logoutUser
  | statusView
deriving DecidableEq, Repr

/-- Which view functions carry `@login_required`, read off the decorators in
`trustlog_backend/auth.py` and `trustlog_backend/routes/logs.py`. -/
def requiresLogin : Endpoint → Bool
  | .downloadAttachment => false
  | .authAllowedExtensions => false
  | .registerUser => false
  | .loginUser => false
  | .statusView => false
  | _ => true

/-- The record/attachment endpoints of the logs blueprint (the spec's
"record/attachment endpoint" set). -/
def recordAttachmentEndpoints : List Endpoint :=
  [.createLog, .listLogs, .getLog, .updateLog, .deleteLog,
   .downloadAttachment, .deleteAttachment, .listAttachments]

/-- How `flask_login` dispatches one request: with `@login_required` and no
active session the fixed `unauthorized` value is returned and the view body
(`run`) never executes. -/
def dispatch {α : Type} (e : Endpoint) (sessionActive : Bool)
    (unauthorized : α) (run : Unit → α) : α :=
  if requiresLogin e && !sessionActive then unauthorized else run ()

/-- Modelled from the spec: the blueprint registration (app factory) that
maps public URLs onto view functions is not under `src/`; per spec §6,
`GET /config/allowed_extensions` is served by the session-free view — the
one in `auth.py`, whose comment says it is "NOT login_required by design"
("Moved from logs.py"). -/
def urlAllowedExtensions : Endpoint := .authAllowedExtensions

/-- View body of `GET /config/allowed_extensions` (`auth.py`
`get_allowed_extensions`): 200 with `list(Config.ALLOWED_EXTENSIONS)`. -/
def get_allowed_extensions : Nat × List String := (200, ALLOWED_EXTENSIONS)

/-! ## Registration (`trustlog_backend/auth.py`) -/

/-- A handler's observable outcome: an HTTP response, or an exception that
escapes the handler (no surrounding `except` matches). -/
inductive PyOutcome (α : Type) where
  | resp (a : α)
  | unhandled (exc : String)
deriving DecidableEq, Repr

/-- Responses `register` can produce. -/
inductive RegisterResult where
  | badRequest
  | conflict
  | createdLoggedIn (username : String)
  | serverError
deriving DecidableEq, Repr

/-- The module-level names `trustlog_backend/auth.py` imports (its complete
`import`/`from` list); resolving any other global name raises `NameError`. -/
def authModuleImports : List String :=
  ["Blueprint", "request", "jsonify", "current_app",
   "generate_password_hash", "check_password_hash",
   "login_user", "logout_user", "login_required", "current_user",
   "get_db_connection", "User", "Config"]

/-- Handler for `POST /register` (`register` in `trustlog_backend/auth.py`), with the
outcome of the `INSERT INTO users` made explicit: when the insert raises
`sqlite3.Error`, the `except sqlite3.Error` clause must first resolve the
global name `sqlite3` — which `auth.py` never imports — so the handler
raises `NameError` instead of returning the 500 JSON body (the duplicate
handler in `app.py` does import `sqlite3` and returns the 500). -/
def register (username password : String) (users : List (Nat × String))
    (insertRaisesDbError : Bool) : PyOutcome RegisterResult :=
  if username = "" || password = "" then .resp .badRequest
  else if users.any (fun u => u.2 = username) then .resp .conflict
  else if insertRaisesDbError then
    if "sqlite3" ∈ authModuleImports then .resp .serverError
    else .unhandled "NameError: name sqlite3 is not defined"
  else .resp (.createdLoggedIn username)

/-- A file part that makes the extension check raise `ValueError`: a
non-empty filename rejected by `allowed_file`. -/
def fileFails (f : FilePart) : Bool :=
  !(decide (f.filename = "")) && !(allowed_file f.filename)

/-! ## Concrete scenario states -/

/-- An empty system: no rows, no files, both id generators at 1. -/
def sysEmpty : Sys := ⟨⟨[], [], 1, 1⟩, []⟩

/-- A fixed request environment: one fresh name per draw, January 2025 date
bucket, a fixed server-clock text. -/
def envStd : Env := ⟨fun k => "u" ++ (String.mk (Nat.toDigits 10 k)), "2025/01", "ts0"⟩

/-- The spec §8 scenario payload: `date_of_incident="2025-01-10"`,
`category="A"`, `description_of_incident="desc"`,
`impact_types=["financial"]`. -/
def formStd : FormData :=
  ⟨some "2025-01-10", none, some "A", some "desc", some "[\"financial\"]",
    none, none, none⟩

/-- The one attached file of the spec §8 scenario. -/
def filesStd : List FilePart := [⟨"report.pdf", "application/pdf", 3⟩]

/-- The state after the scenario create: one record, one attachment, one
file on disk. -/
def sysScenario : Sys := (create_log_record sysEmpty formStd filesStd envStd).2

/-- The response dict `GET /log_records/1` returns in the scenario state. -/
def dictScenario : List (String × JVal) :=
  [("id", .n 1), ("date_of_incident", .s "2025-01-10"), ("time_of_incident", .null),
   ("category", .s "A"), ("description_of_incident", .s "desc"),
   ("impact_types", .arr ["financial"]), ("impact_details", .null),
   ("supporting_evidence_snippet", .null), ("exhibit_reference", .null),
   ("created_at", .s "ts0")]

/-- The payload whose `impact_types` field is the JSON text `[]`. -/
def formEmptyImpact : FormData := { formStd with impact_types := some "[]" }

/-- The payload whose optional `supporting_evidence_snippet` is the literal
string `"null"`. -/
def formNullSnippet : FormData :=
  { formStd with supporting_evidence_snippet := some "null" }

/-- A pre-existing record used by the update scenarios. -/
def rowPre : LogRecordRow :=
  ⟨1, "2025-01-01", none, "B", "old", "[\"a\"]", none, some "x", none, "ts-1"⟩

/-- A system holding `rowPre` only. -/
def sysPre : Sys := ⟨⟨[rowPre], [], 2, 1⟩, []⟩

/-- The one attachment row the scenario create inserts. -/
def attScenario : AttachmentRow :=
  ⟨1, 1, "report.pdf", "u0.pdf", "2025/01/u0.pdf", "application/pdf", 3, "ts0"⟩

/-! ## The serialize/parse round trip for `impact_types` -/

theorem hexVal_hexDigitChar : ∀ n : Nat, n < 16 → hexVal (hexDigitChar n) = some n := by
  decide

theorem isValidChar_of_lt32 {n : Nat} (h : n < 32) : n.isValidChar := Or.inl (by omega)

theorem skipWs_cons_of_not_ws {c : Char} {cs : List Char} (h : isJsonWs c = false) :
    skipWs (c :: cs) = c :: cs := by simp [skipWs, h]

/-- Scanning the encoded body of a string recovers it and stops at the
closing quote. -/
theorem scanStr_encodeString (s rest : List Char) :
    scanStr (encodeString s ++ ('"' :: rest)) = some (s, rest) := by
  induction s with
  | nil =>
    show scanStr ('"' :: rest) = _
    rw [scanStr.eq_def]; simp
  | cons c cs ih =>
    show scanStr ((escapeChar c ++ encodeString cs) ++ ('"' :: rest)) = _
    rw [List.append_assoc]
    by_cases h1 : c = '"'
    · subst h1
      rw [show escapeChar '"' = ['\\', '"'] from by decide,
        List.cons_append, List.cons_append, List.nil_append, scanStr.eq_def]
      simp [consScan, ih]
    · by_cases h2 : c = '\\'
      · subst h2
        rw [show escapeChar '\\' = ['\\', '\\'] from by decide,
          List.cons_append, List.cons_append, List.nil_append, scanStr.eq_def]
        simp [consScan, ih]
      · by_cases h3 : c = '\n'
        · subst h3
          rw [show escapeChar '\n' = ['\\', 'n'] from by decide,
            List.cons_append, List.cons_append, List.nil_append, scanStr.eq_def]
          simp [consScan, ih]
        · by_cases h4 : c = '\r'
          · subst h4
            rw [show escapeChar '\r' = ['\\', 'r'] from by decide,
              List.cons_append, List.cons_append, List.nil_append, scanStr.eq_def]
            simp [consScan, ih]
          · by_cases h5 : c = '\t'
            · subst h5
              rw [show escapeChar '\t' = ['\\', 't'] from by decide,
                List.cons_append, List.cons_append, List.nil_append, scanStr.eq_def]
              simp [consScan, ih]
            · by_cases h6 : c = Char.ofNat 8
              · subst h6
                rw [show escapeChar (Char.ofNat 8) = ['\\', 'b'] from by decide,
                  List.cons_append, List.cons_append, List.nil_append, scanStr.eq_def]
                simp [consScan, ih]
              · by_cases h7 : c = Char.ofNat 12
                · subst h7
                  rw [show escapeChar (Char.ofNat 12) = ['\\', 'f'] from by decide,
                    List.cons_append, List.cons_append, List.nil_append, scanStr.eq_def]
                  simp [consScan, ih]
                · by_cases h8 : c.toNat < 32
                  · have he : escapeChar c = ['\\', 'u', '0', '0',
                        hexDigitChar (c.toNat / 16), hexDigitChar (c.toNat % 16)] := by
                      simp [escapeChar, h1, h2, h3, h4, h5, h6, h7, h8]
                    have hdiv := hexVal_hexDigitChar (c.toNat / 16) (by omega)
                    have hmod := hexVal_hexDigitChar (c.toNat % 16) (by omega)
                    have hv0 : hexVal '0' = some 0 := by decide
                    have hn : c.toNat / 16 * 16 + c.toNat % 16 = c.toNat := by omega
                    rw [he]
                    simp only [List.cons_append, List.nil_append]
                    rw [scanStr.eq_def]
                    simp [hv0, hdiv, hmod, consScan, ih]
                    rw [hn]
                    exact ⟨isValidChar_of_lt32 h8, Char.ofNat_toNat c⟩
                  · have he : escapeChar c = [c] := by
                      simp [escapeChar, h1, h2, h3, h4, h5, h6, h7, h8]
                    rw [he]
                    simp only [List.cons_append, List.nil_append]
                    rw [scanStr.eq_def]
                    simp [h1, h2, h8, consScan, ih]

theorem length_le_length_encTail (l : List String) : l.length ≤ (encTail l).length := by
  induction l with
  | nil => simp [encTail]
  | cons s rest ih => simp [encTail]; omega

/-- Scanning the encoded elements of a non-empty array recovers them and
consumes the closing bracket. -/
theorem scanElems_encode (l : List String) :
    ∀ (fuel : Nat) (s : String), l.length < fuel →
      scanElems fuel (encElem s ++ encTail l) = some ((s :: l).map String.data, []) := by
  induction l with
  | nil =>
    intro fuel s hf
    cases fuel with
    | zero => exact (Nat.not_lt_zero _ hf).elim
    | succ fuel =>
      show scanElems (fuel + 1) ('"' :: ((encodeString s.data ++ ['"']) ++ encTail [])) = _
      rw [scanElems]
      rw [show (encodeString s.data ++ ['"']) ++ encTail [] =
          encodeString s.data ++ ('"' :: [']']) from by simp [encTail]]
      simp [scanStr_encodeString, skipWs, isJsonWs]
  | cons s2 rest ih =>
    intro fuel s hf
    cases fuel with
    | zero => exact (Nat.not_lt_zero _ hf).elim
    | succ fuel =>
      show scanElems (fuel + 1) ('"' :: ((encodeString s.data ++ ['"']) ++ encTail (s2 :: rest))) = _
      rw [scanElems]
      rw [show (encodeString s.data ++ ['"']) ++ encTail (s2 :: rest) =
          encodeString s.data ++ ('"' :: (',' :: ' ' :: (encElem s2 ++ encTail rest))) from by
        simp [encTail]]
      have hws : skipWs (',' :: ' ' :: (encElem s2 ++ encTail rest)) =
          ',' :: ' ' :: (encElem s2 ++ encTail rest) := by
        apply skipWs_cons_of_not_ws; decide
      have hws2 : skipWs (' ' :: (encElem s2 ++ encTail rest)) =
          encElem s2 ++ encTail rest := by
        show skipWs (' ' :: ('"' :: (encodeString s2.data ++ ['"']) ++ encTail rest)) = _
        simp [skipWs, isJsonWs, encElem]
      have hrec := ih fuel s2 (Nat.lt_of_succ_lt_succ hf)
      simp [scanStr_encodeString, hws, hws2, hrec]

/-- `json.loads (json.dumps l) = l` for every list of strings: the
round trip the create/update handlers compose with `get`. -/
theorem parse_dumps (l : List String) : parseStrArray (dumpsStrArray l) = some l := by
  cases l with
  | nil => decide
  | cons s rest =>
    have hmk : ∀ x : String, (⟨x.data⟩ : String) = x := fun x => by cases x; rfl
    show parseStrArray ⟨'[' :: ('"' :: ((encodeString s.data ++ ['"']) ++ encTail rest))⟩ = _
    rw [parseStrArray]
    have h0 : (⟨'[' :: ('"' :: ((encodeString s.data ++ ['"']) ++ encTail rest))⟩ : String).data =
        '[' :: ('"' :: ((encodeString s.data ++ ['"']) ++ encTail rest)) := rfl
    rw [h0, skipWs_cons_of_not_ws (by decide), parseTop,
      skipWs_cons_of_not_ws (by decide), parseAfterBracket]
    have hlen : rest.length <
        ('"' :: ((encodeString s.data ++ ['"']) ++ encTail rest)).length + 1 := by
      have h := length_le_length_encTail rest
      simp only [List.length_cons, List.length_append]
      omega
    have hscan := scanElems_encode rest
      (('"' :: ((encodeString s.data ++ ['"']) ++ encTail rest)).length + 1) s hlen
    have henc : encElem s ++ encTail rest =
        '"' :: ((encodeString s.data ++ ['"']) ++ encTail rest) := by
      simp [encElem]
    rw [henc] at hscan
    simp only [reduceIte]
    rw [hscan]
    simp [skipWs, hmk, List.map_map, Function.comp]
    have hcomp : ((fun e => (⟨e⟩ : String)) ∘ String.data) = id := by
      funext x; exact hmk x
    rw [hcomp, List.map_id]

/-! ## The BINARY-collation order -/

theorem lexLt_trichotomy : ∀ a b : List Char,
    lexLt a b = true ∨ a = b ∨ lexLt b a = true
  | [], [] => Or.inr (Or.inl rfl)
  | [], _ :: _ => Or.inl rfl
  | _ :: _, [] => Or.inr (Or.inr rfl)
  | a :: as, b :: bs => by
    by_cases h1 : a.toNat < b.toNat
    · exact Or.inl (by simp [lexLt, h1])
    · by_cases h2 : b.toNat < a.toNat
      · exact Or.inr (Or.inr (by simp [lexLt, h2]))
      · have hab : a = b := by
          have ht : a.toNat = b.toNat := by omega
          have := Char.ofNat_toNat a
          rw [ht, Char.ofNat_toNat] at this
          exact this.symm
        subst hab
        rcases lexLt_trichotomy as bs with h | h | h
        · exact Or.inl (by simp [lexLt, h])
        · exact Or.inr (Or.inl (by rw [h]))
        · exact Or.inr (Or.inr (by simp [lexLt, h]))

theorem lexLt_trans : ∀ a b c : List Char,
    lexLt a b = true → lexLt b c = true → lexLt a c = true
  | _, [], [] => by intro _ h; simp [lexLt] at h
  | [], _ :: _, [] => by intro _ h; simp [lexLt] at h
  | _ :: _, _ :: _, [] => by intro _ h; simp [lexLt] at h
  | [], _, _ :: _ => by intro _ _; rfl
  | _ :: _, [], _ => by intro h _; simp [lexLt] at h
  | a :: as, b :: bs, c :: cs => by
    intro h1 h2
    simp only [lexLt] at h1 h2 ⊢
    by_cases hab : a.toNat < b.toNat
    · by_cases hbc : b.toNat < c.toNat
      · simp [show a.toNat < c.toNat from by omega]
      · by_cases hcb : c.toNat < b.toNat
        · simp [hbc, hcb] at h2
        · simp [show a.toNat < c.toNat from by omega]
    · by_cases hba : b.toNat < a.toNat
      · simp [hab, hba] at h1
      · by_cases hbc : b.toNat < c.toNat
        · simp [show a.toNat < c.toNat from by omega]
        · by_cases hcb : c.toNat < b.toNat
          · simp [hbc, hcb] at h2
          · have hac1 : ¬a.toNat < c.toNat := by omega
            have hac2 : ¬c.toNat < a.toNat := by omega
            simp [hab, hba] at h1
            simp [hbc, hcb] at h2
            simp [hac1, hac2]
            exact lexLt_trans as bs cs h1 h2

theorem lexLt_irrefl : ∀ a : List Char, lexLt a a = false
  | [] => rfl
  | a :: as => by simp [lexLt, lexLt_irrefl as]

theorem lexLt_asymm {a b : List Char} (h : lexLt a b = true) : lexLt b a = false := by
  by_contra hc
  have hba : lexLt b a = true := by
    cases hx : lexLt b a with
    | true => rfl
    | false => exact absurd hx hc
  have h2 := lexLt_trans a b a h hba
  rw [lexLt_irrefl] at h2
  exact Bool.false_ne_true h2

theorem strings_eq_of_data_eq {a b : String} (h : a.data = b.data) : a = b := by
  cases a with
  | mk da =>
    cases b with
    | mk db => exact congrArg String.mk h

theorem strLe_iff {a b : String} : strLe a b = true ↔ lexLt b.data a.data = false := by
  simp [strLe, strLt]

theorem strLt_iff {a b : String} : strLt a b = true ↔ lexLt a.data b.data = true :=
  Iff.rfl

theorem strLe_total (a b : String) : strLe a b = true ∨ strLe b a = true := by
  rcases lexLt_trichotomy a.data b.data with h | h | h
  · exact Or.inl (strLe_iff.mpr (lexLt_asymm h))
  · have hab : a = b := strings_eq_of_data_eq h
    subst hab
    exact Or.inl (strLe_iff.mpr (lexLt_irrefl a.data))
  · exact Or.inr (strLe_iff.mpr (lexLt_asymm h))

theorem strLt_trans {a b c : String} (h1 : strLt a b = true) (h2 : strLt b c = true) :
    strLt a c = true := lexLt_trans _ _ _ h1 h2

theorem strLe_trans {a b c : String} (h1 : strLe a b = true) (h2 : strLe b c = true) :
    strLe a c = true := by
  rw [strLe_iff] at h1 h2 ⊢
  by_contra hc
  have hca : lexLt c.data a.data = true := by
    cases hx : lexLt c.data a.data with
    | true => rfl
    | false => exact absurd hx hc
  rcases lexLt_trichotomy b.data c.data with h | h | h
  · have h3 := lexLt_trans _ _ _ h hca
    rw [h3] at h1
    exact absurd h1 (by decide)
  · rw [← h] at hca
    rw [hca] at h1
    exact absurd h1 (by decide)
  · rw [h] at h2
    exact absurd h2 (by decide)

theorem strLt_asymm {a b : String} (h : strLt a b = true) : strLt b a = false :=
  lexLt_asymm h

/-! ## The combined ORDER BY relation is total and transitive -/

theorem rowLe_total (col : String) (d : Bool) (a b : LogRecordRow) :
    rowLe col d a b = true ∨ rowLe col d b a = true := by
  by_cases hk : sortKey col a = sortKey col b
  · rw [rowLe, if_pos hk, rowLe, if_pos hk.symm]
    exact (strLe_total b.created_at a.created_at).elim Or.inl Or.inr
  · have hk2 : ¬ sortKey col b = sortKey col a := fun h => hk h.symm
    rw [rowLe, if_neg hk, rowLe, if_neg hk2]
    cases d
    · rw [if_neg Bool.false_ne_true, if_neg Bool.false_ne_true]
      rcases lexLt_trichotomy (sortKey col a).data (sortKey col b).data with h | h | h
      · exact Or.inl h
      · exact absurd (strings_eq_of_data_eq h) hk
      · exact Or.inr h
    · rw [if_pos rfl, if_pos rfl]
      rcases lexLt_trichotomy (sortKey col a).data (sortKey col b).data with h | h | h
      · exact Or.inr h
      · exact absurd (strings_eq_of_data_eq h) hk
      · exact Or.inl h

theorem rowLe_trans (col : String) (d : Bool) (a b c : LogRecordRow)
    (h1 : rowLe col d a b = true) (h2 : rowLe col d b c = true) :
    rowLe col d a c = true := by
  by_cases hab : sortKey col a = sortKey col b
  · by_cases hbc : sortKey col b = sortKey col c
    · have hac : sortKey col a = sortKey col c := hab.trans hbc
      rw [rowLe, if_pos hab] at h1
      rw [rowLe, if_pos hbc] at h2
      rw [rowLe, if_pos hac]
      exact strLe_trans h2 h1
    · have hac : ¬ sortKey col a = sortKey col c := fun h => hbc (hab.symm.trans h)
      rw [rowLe, if_neg hbc] at h2
      rw [rowLe, if_neg hac, hab]
      exact h2
  · by_cases hbc : sortKey col b = sortKey col c
    · have hac : ¬ sortKey col a = sortKey col c := fun h => hab (h.trans hbc.symm)
      rw [rowLe, if_neg hab] at h1
      rw [rowLe, if_neg hac, ← hbc]
      exact h1
    · rw [rowLe, if_neg hab] at h1
      rw [rowLe, if_neg hbc] at h2
      have hac : ¬ sortKey col a = sortKey col c := by
        intro h
        cases d
        · rw [if_neg Bool.false_ne_true] at h1 h2
          rw [h] at h1
          have h3 := strLt_asymm h1
          rw [h3] at h2
          exact Bool.false_ne_true h2
        · rw [if_pos rfl] at h1 h2
          rw [← h] at h2
          have h3 := strLt_asymm h1
          rw [h3] at h2
          exact Bool.false_ne_true h2
      rw [rowLe, if_neg hac]
      cases d
      · rw [if_neg Bool.false_ne_true] at h1 h2 ⊢
        exact strLt_trans h1 h2
      · rw [if_pos rfl] at h1 h2 ⊢
        exact strLt_trans h2 h1

/-! ## The sort produces an ordered permutation -/

theorem insertLe_perm (le : LogRecordRow → LogRecordRow → Bool) (a : LogRecordRow) :
    ∀ l : List LogRecordRow, List.Perm (insertLe le a l) (a :: l)
  | [] => List.Perm.refl _
  | b :: bs => by
    rw [insertLe]
    by_cases h : le a b = true
    · rw [if_pos h]
    · rw [if_neg h]
      exact ((insertLe_perm le a bs).cons b).trans (List.Perm.swap a b bs)

theorem sortRows_perm (le : LogRecordRow → LogRecordRow → Bool) :
    ∀ l : List LogRecordRow, List.Perm (sortRows le l) l
  | [] => List.Perm.refl _
  | a :: as => by
    rw [sortRows]
    exact (insertLe_perm le a (sortRows le as)).trans ((sortRows_perm le as).cons a)

theorem insertLe_pairwise (le : LogRecordRow → LogRecordRow → Bool)
    (htot : ∀ x y, le x y = true ∨ le y x = true)
    (htrans : ∀ x y z, le x y = true → le y z = true → le x z = true) (a : LogRecordRow) :
    ∀ l : List LogRecordRow, l.Pairwise (fun x y => le x y = true) →
      (insertLe le a l).Pairwise (fun x y => le x y = true)
  | [], _ => by simp [insertLe]
  | b :: bs, hp => by
    rw [insertLe]
    rcases List.pairwise_cons.mp hp with ⟨hb, hbs⟩
    by_cases h : le a b = true
    · rw [if_pos h]
      refine List.pairwise_cons.mpr ⟨?_, hp⟩
      intro x hx
      rcases List.mem_cons.mp hx with rfl | hx
      · exact h
      · exact htrans a b x h (hb x hx)
    · rw [if_neg h]
      refine List.pairwise_cons.mpr ⟨?_, insertLe_pairwise le htot htrans a bs hbs⟩
      intro x hx
      have hmem := (insertLe_perm le a bs).mem_iff.mp hx
      rcases List.mem_cons.mp hmem with rfl | hx2
      · rcases htot b x with hbx | hxb
        · exact hbx
        · exact absurd hxb (by simp [h])
      · exact hb x hx2

theorem sortRows_pairwise (le : LogRecordRow → LogRecordRow → Bool)
    (htot : ∀ x y, le x y = true ∨ le y x = true)
    (htrans : ∀ x y z, le x y = true → le y z = true → le x z = true) :
    ∀ l : List LogRecordRow, (sortRows le l).Pairwise (fun x y => le x y = true)
  | [] => by simp [sortRows]
  | a :: as => by
    rw [sortRows]
    exact insertLe_pairwise le htot htrans a (sortRows le as)
      (sortRows_pairwise le htot htrans as)

/-! ## Behaviour of the file-upload loop -/



theorem cleanupDisk_nil (disk : List String) : cleanupDisk disk [] = disk := by
  simp [cleanupDisk]

theorem cleanupDisk_append_subset (disk saved : List String) (p : String) :
    cleanupDisk (disk ++ [p]) (saved ++ [p]) ⊆ cleanupDisk disk saved := by
  intro x hx
  simp only [cleanupDisk, List.mem_filter, List.mem_append, List.mem_singleton,
    Bool.not_eq_true', decide_eq_false_iff_not] at hx ⊢
  obtain ⟨hmem, hns⟩ := hx
  refine ⟨?_, fun h => hns (Or.inl h)⟩
  rcases hmem with h | h
  · exact h
  · exact absurd (Or.inr h) hns

theorem processFiles_cons_empty {f : FilePart} (logId : Nat) (msgPre : String) (env : Env)
    (rest : List FilePart) (st : LoopState) (h : f.filename = "") :
    processFiles logId msgPre env (f :: rest) st =
      processFiles logId msgPre env rest st := by
  rw [processFiles, if_pos h]

theorem processFiles_cons_rejected {f : FilePart} (logId : Nat) (msgPre : String) (env : Env)
    (rest : List FilePart) (st : LoopState) (h1 : ¬ f.filename = "")
    (h2 : allowed_file f.filename = false) :
    processFiles logId msgPre env (f :: rest) st =
      (st, some (.valErr (msgPre ++ f.filename))) := by
  rw [processFiles, if_neg h1, if_pos (by rw [h2]; rfl)]

theorem processFiles_cons_nodot {f : FilePart} (logId : Nat) (msgPre : String) (env : Env)
    (rest : List FilePart) (st : LoopState) (h1 : ¬ f.filename = "")
    (h2 : allowed_file f.filename = true)
    (h3 : (secure_filename f.filename).data.contains '.' = false) :
    processFiles logId msgPre env (f :: rest) st = (st, some .idxErr) := by
  rw [processFiles, if_neg h1, if_neg (by rw [h2]; exact Bool.false_ne_true),
    if_pos (by rw [h3]; rfl)]

theorem processFiles_cons_save {f : FilePart} (logId : Nat) (msgPre : String) (env : Env)
    (rest : List FilePart) (st : LoopState) (h1 : ¬ f.filename = "")
    (h2 : allowed_file f.filename = true)
    (h3 : (secure_filename f.filename).data.contains '.' = true) :
    processFiles logId msgPre env (f :: rest) st =
      processFiles logId msgPre env rest (saveStep logId env f st) := by
  rw [processFiles, if_neg h1, if_neg (by rw [h2]; exact Bool.false_ne_true),
    if_neg (by rw [h3]; exact Bool.false_ne_true)]

theorem processFiles_cleanup_subset (logId : Nat) (msgPre : String) (env : Env) :
    ∀ (files : List FilePart) (st : LoopState),
      cleanupDisk (processFiles logId msgPre env files st).1.disk
          (processFiles logId msgPre env files st).1.saved ⊆
        cleanupDisk st.disk st.saved
  | [], st => by rw [processFiles]; exact fun x hx => hx
  | f :: rest, st => by
    by_cases h : f.filename = ""
    · rw [processFiles_cons_empty logId msgPre env rest st h]
      exact processFiles_cleanup_subset logId msgPre env rest st
    · cases ha : allowed_file f.filename with
      | false =>
        rw [processFiles_cons_rejected logId msgPre env rest st h ha]
        exact fun x hx => hx
      | true =>
        cases hd : (secure_filename f.filename).data.contains '.' with
        | false =>
          rw [processFiles_cons_nodot logId msgPre env rest st h ha hd]
          exact fun x hx => hx
        | true =>
          rw [processFiles_cons_save logId msgPre env rest st h ha hd]
          refine (processFiles_cleanup_subset logId msgPre env rest _).trans ?_
          exact cleanupDisk_append_subset st.disk st.saved _

theorem processFiles_keeps_log_records (logId : Nat) (msgPre : String) (env : Env) :
    ∀ (files : List FilePart) (st : LoopState),
      (processFiles logId msgPre env files st).1.db.next_log_id = st.db.next_log_id ∧
      (processFiles logId msgPre env files st).1.db.log_records = st.db.log_records
  | [], st => by rw [processFiles]; exact ⟨rfl, rfl⟩
  | f :: rest, st => by
    by_cases h : f.filename = ""
    · rw [processFiles_cons_empty logId msgPre env rest st h]
      exact processFiles_keeps_log_records logId msgPre env rest st
    · cases ha : allowed_file f.filename with
      | false =>
        rw [processFiles_cons_rejected logId msgPre env rest st h ha]
        exact ⟨rfl, rfl⟩
      | true =>
        cases hd : (secure_filename f.filename).data.contains '.' with
        | false =>
          rw [processFiles_cons_nodot logId msgPre env rest st h ha hd]
          exact ⟨rfl, rfl⟩
        | true =>
          rw [processFiles_cons_save logId msgPre env rest st h ha hd]
          exact processFiles_keeps_log_records logId msgPre env rest _

theorem processFiles_some_of_fails (logId : Nat) (msgPre : String) (env : Env) :
    ∀ (files : List FilePart) (st : LoopState),
      (∃ f, f ∈ files ∧ fileFails f = true) →
      (processFiles logId msgPre env files st).2 ≠ none
  | [], _, h => by
    obtain ⟨f, hf, _⟩ := h
    exact absurd hf (List.not_mem_nil f)
  | f :: rest, st, h => by
    by_cases hemp : f.filename = ""
    · rw [processFiles_cons_empty logId msgPre env rest st hemp]
      apply processFiles_some_of_fails logId msgPre env rest st
      obtain ⟨g, hg, hgf⟩ := h
      rcases List.mem_cons.mp hg with rfl | hg2
      · rw [fileFails, hemp] at hgf
        simp at hgf
      · exact ⟨g, hg2, hgf⟩
    · cases ha : allowed_file f.filename with
      | false =>
        rw [processFiles_cons_rejected logId msgPre env rest st hemp ha]
        simp
      | true =>
        cases hd : (secure_filename f.filename).data.contains '.' with
        | false =>
          rw [processFiles_cons_nodot logId msgPre env rest st hemp ha hd]
          simp
        | true =>
          rw [processFiles_cons_save logId msgPre env rest st hemp ha hd]
          apply processFiles_some_of_fails logId msgPre env rest _
          obtain ⟨g, hg, hgf⟩ := h
          rcases List.mem_cons.mp hg with rfl | hg2
          · rw [fileFails, ha] at hgf
            simp at hgf
          · exact ⟨g, hg2, hgf⟩

theorem processFiles_valErr_of_clean_lead (logId : Nat) (msgPre : String) (env : Env) :
    ∀ (files : List FilePart) (st : LoopState),
      (∃ f, f ∈ files ∧ fileFails f = true) →
      (∀ f, f ∈ files.takeWhile (fun g => !(fileFails g)) → f.filename ≠ "" →
        (secure_filename f.filename).data.contains '.' = true) →
      ∃ m, (processFiles logId msgPre env files st).2 = some (.valErr m)
  | [], _, h, _ => by
    obtain ⟨f, hf, _⟩ := h
    exact absurd hf (List.not_mem_nil f)
  | f :: rest, st, h, hpre => by
    by_cases hff : fileFails f = true
    · have hemp : ¬ f.filename = "" := by
        intro he
        rw [fileFails, he] at hff
        simp at hff
      have hna : allowed_file f.filename = false := by
        cases hx : allowed_file f.filename with
        | false => rfl
        | true =>
          rw [fileFails, hx] at hff
          simp at hff
      rw [processFiles_cons_rejected logId msgPre env rest st hemp hna]
      exact ⟨msgPre ++ f.filename, rfl⟩
    · have htw : (f :: rest).takeWhile (fun g => !(fileFails g)) =
          f :: rest.takeWhile (fun g => !(fileFails g)) := by
        rw [List.takeWhile_cons, if_pos (by simp [hff])]
      have hrest : ∃ g, g ∈ rest ∧ fileFails g = true := by
        obtain ⟨g, hg, hgf⟩ := h
        rcases List.mem_cons.mp hg with rfl | hg2
        · exact absurd hgf hff
        · exact ⟨g, hg2, hgf⟩
      have hpre2 : ∀ g, g ∈ rest.takeWhile (fun g => !(fileFails g)) → g.filename ≠ "" →
          (secure_filename g.filename).data.contains '.' = true := by
        intro g hg hgne
        exact hpre g (htw ▸ List.mem_cons_of_mem f hg) hgne
      by_cases hemp : f.filename = ""
      · rw [processFiles_cons_empty logId msgPre env rest st hemp]
        exact processFiles_valErr_of_clean_lead logId msgPre env rest st hrest hpre2
      · have ha : allowed_file f.filename = true := by
          cases hx : allowed_file f.filename with
          | true => rfl
          | false => exact absurd (by simp [fileFails, hemp, hx]) hff
        have hdot : (secure_filename f.filename).data.contains '.' = true :=
          hpre f (htw ▸ List.mem_cons_self f _) hemp
        rw [processFiles_cons_save logId msgPre env rest st hemp ha hdot]
        exact processFiles_valErr_of_clean_lead logId msgPre env rest _ hrest hpre2

theorem processFiles_filter_empty (logId : Nat) (msgPre : String) (env : Env) :
    ∀ (files : List FilePart) (st : LoopState),
      processFiles logId msgPre env files st =
        processFiles logId msgPre env
          (files.filter (fun f => !(decide (f.filename = "")))) st
  | [], _ => rfl
  | f :: rest, st => by
    by_cases h : f.filename = ""
    · have hfil : (f :: rest).filter (fun f => !(decide (f.filename = ""))) =
          rest.filter (fun f => !(decide (f.filename = ""))) := by
        simp [List.filter_cons, h]
      rw [hfil, processFiles_cons_empty logId msgPre env rest st h]
      exact processFiles_filter_empty logId msgPre env rest st
    · have hfil : (f :: rest).filter (fun f => !(decide (f.filename = ""))) =
          f :: rest.filter (fun f => !(decide (f.filename = ""))) := by
        simp [List.filter_cons, h]
      rw [hfil]
      cases ha : allowed_file f.filename with
      | false =>
        rw [processFiles_cons_rejected logId msgPre env rest st h ha,
          processFiles_cons_rejected logId msgPre env _ st h ha]
      | true =>
        cases hd : (secure_filename f.filename).data.contains '.' with
        | false =>
          rw [processFiles_cons_nodot logId msgPre env rest st h ha hd,
            processFiles_cons_nodot logId msgPre env _ st h ha hd]
        | true =>
          rw [processFiles_cons_save logId msgPre env rest st h ha hd,
            processFiles_cons_save logId msgPre env _ st h ha hd]
          exact processFiles_filter_empty logId msgPre env rest _



/-! ## Claim theorems -/

/-- C9 (code bug): a database error during the blueprint `register`
(`trustlog_backend/auth.py`) is not translated into the 500 JSON body:
evaluating the handler at a failing insert yields an unhandled `NameError`,
because the `except sqlite3.Error` clause names `sqlite3`, which is not
among the names `auth.py` imports. -/
theorem register_db_error_unhandled :
    register "alice" "pw" [] true =
      .unhandled "NameError: name sqlite3 is not defined" ∧
    ¬ ("sqlite3" ∈ authModuleImports) := by decide

/-- C10: file parts with an empty filename are silently skipped by both
create and update: a request behaves exactly like the same request with its
empty-filename parts removed — same response, same database, same disk — so
they are never validated, never stored, and never fail the request. -/
theorem empty_filename_parts_skipped (sys : Sys) (form : FormData)
    (files : List FilePart) (env : Env) (logId : Nat) :
    create_log_record sys form files env =
      create_log_record sys form
        (files.filter (fun f => !(decide (f.filename = "")))) env ∧
    update_log_record sys logId form files env =
      update_log_record sys logId form
        (files.filter (fun f => !(decide (f.filename = "")))) env := by
  constructor
  · cases hr : requiredFieldsCheck form with
    | some msg => simp [create_log_record, hr]
    | none =>
      cases hp : parseStrArray (form.impact_types.getD "") with
      | none => simp [create_log_record, hr, hp]
      | some impact =>
        simp only [create_log_record, hr, hp]
        rw [← processFiles_filter_empty]
  · cases hex : sys.db.log_records.any (fun r => r.id = logId) with
    | false => simp [update_log_record, hex]
    | true =>
      cases hr : requiredFieldsCheck form with
      | some msg => simp [update_log_record, hex, hr]
      | none =>
        cases hp : parseStrArray (form.impact_types.getD "") with
        | none => simp [update_log_record, hex, hr, hp]
        | some impact =>
          simp only [update_log_record, hex, hr, hp]
          rw [← processFiles_filter_empty]

/-- C7: every record/attachment endpoint except attachment download
carries `@login_required` and, with no session, returns the fixed 401
without running the view body; the download view and the session-free
`allowed_extensions` view (the one at `GET /config/allowed_extensions`,
modelled from the spec since the blueprint registration is not in `src/`)
run regardless of the session, and the latter returns 200 with the
allow-list. -/
theorem session_gate :
    (∀ e, e ∈ recordAttachmentEndpoints → e ≠ .downloadAttachment →
      requiresLogin e = true ∧
      ∀ (α : Type) (unauthorized : α) (run : Unit → α),
        dispatch e false unauthorized run = unauthorized) ∧
    urlAllowedExtensions = .authAllowedExtensions ∧
    requiresLogin .authAllowedExtensions = false ∧
    requiresLogin .downloadAttachment = false ∧
    (∀ (α : Type) (u : α) (run : Unit → α) (sessionActive : Bool),
      dispatch .downloadAttachment sessionActive u run = run () ∧
      dispatch .authAllowedExtensions sessionActive u run = run ()) ∧
    get_allowed_extensions = (200, ALLOWED_EXTENSIONS) := by
  refine ⟨?_, rfl, rfl, rfl, ?_, rfl⟩
  · intro e he hne
    simp only [recordAttachmentEndpoints, List.mem_cons, List.not_mem_nil, or_false] at he
    rcases he with rfl | rfl | rfl | rfl | rfl | rfl | rfl | rfl
    · exact ⟨rfl, fun α u run => rfl⟩
    · exact ⟨rfl, fun α u run => rfl⟩
    · exact ⟨rfl, fun α u run => rfl⟩
    · exact ⟨rfl, fun α u run => rfl⟩
    · exact ⟨rfl, fun α u run => rfl⟩
    · exact absurd rfl hne
    · exact ⟨rfl, fun α u run => rfl⟩
    · exact ⟨rfl, fun α u run => rfl⟩
  · intro α u run sessionActive
    cases sessionActive <;> exact ⟨rfl, rfl⟩

/-- C7 witness: the gate at concrete inputs — create without a session
is the 401 with the view body never consulted; download and the session-free
allow-list view run with no session. -/
theorem session_gate_witness :
    requiresLogin Endpoint.createLog = true ∧
    dispatch Endpoint.createLog false (401 : Nat) (fun _ => 201) = 401 ∧
    dispatch Endpoint.downloadAttachment false (401 : Nat) (fun _ => 200) = 200 ∧
    dispatch Endpoint.authAllowedExtensions false (401 : Nat) (fun _ => 200) = 200 := by
  have h := session_gate
  have h1 := h.1 Endpoint.createLog (by decide) (by decide)
  have h2 := (h.2.2.2.2.1 Nat (401 : Nat) (fun _ => 200) false).1
  have h3 := (h.2.2.2.2.1 Nat (401 : Nat) (fun _ => 200) false).2
  exact ⟨h1.1, h1.2 Nat 401 (fun _ => 201), h2, h3⟩



/-- C6 counterexample: in the scenario state the single-record get
succeeds with `impact_types` expanded, but its response dict has **no**
`attachment_count` key — the claim's `attachment_count = 1` on
`GET /log_records/{id}` is false (the query is `SELECT * FROM log_records`
only). -/
theorem single_get_no_attachment_count :
    (create_log_record sysEmpty formStd filesStd envStd).1 = .created 1 ∧
    get_log_record_by_id sysScenario.db 1 = .ok dictScenario ∧
    dictScenario.lookup "attachment_count" = none := by decide

/-- C6 amended: after the scenario create, `GET /log_records/1` returns
the record with `impact_types = ["financial"]` and no `attachment_count`
field; the computed `attachment_count = 1` appears on the list endpoint
`GET /log_records`, whose row for the record is the same dict extended with
`attachment_count`. -/
theorem single_get_scenario :
    (create_log_record sysEmpty formStd filesStd envStd).1 = .created 1 ∧
    get_log_record_by_id sysScenario.db 1 = .ok dictScenario ∧
    dictScenario.lookup "impact_types" = some (.arr ["financial"]) ∧
    dictScenario.lookup "attachment_count" = none ∧
    get_log_records sysScenario.db ⟨none, none, none, none, none⟩ =
      .ok [dictScenario ++ [("attachment_count", .n 1)]] := by decide



/-- C8 counterexample: a create whose `impact_types` denotes the empty
list (`"[]"`) is **not** rejected: it returns 201 and inserts the row with
`impact_types` stored as `[]` — the field check only rejects a missing or
empty-string form value. -/
theorem empty_impact_list_accepted :
    (create_log_record sysEmpty formEmptyImpact [] envStd).1 = .created 1 ∧
    (create_log_record sysEmpty formEmptyImpact [] envStd).2.db.log_records =
      [⟨1, "2025-01-10", none, "A", "desc", "[]", none, none, none, "ts0"⟩] := by decide

/-- C8 amended: `impact_types` must be present and non-empty **as a
string** at the API boundary: a request whose `impact_types` is missing or
the empty string is rejected with BadRequest and nothing is inserted; but
the string `"[]"`, denoting the empty list, passes validation and the
record is inserted with `impact_types` serialized as `"[]"`. -/
theorem impact_types_presence (sys : Sys) (form : FormData) (files : List FilePart)
    (env : Env) :
    ((form.impact_types = none ∨ form.impact_types = some "") →
      ∃ m, create_log_record sys form files env = (.badRequest m, sys)) ∧
    (requiredFieldsCheck form = none → form.impact_types = some "[]" →
      create_log_record sys form [] env =
        (.created sys.db.next_log_id, ⟨(createStart sys form [] env).db, sys.disk⟩) ∧
      (createStart sys form [] env).db.log_records =
        sys.db.log_records ++ [draftRow form [] sys.db.next_log_id env.now] ∧
      (draftRow form [] sys.db.next_log_id env.now).impact_types = "[]") := by
  constructor
  · intro h
    have himp : form.impact_types.getD "" = "" := by rcases h with h | h <;> simp [h]
    have hreq : ∃ m, requiredFieldsCheck form = some m := by
      unfold requiredFieldsCheck
      by_cases h1 : form.date_of_incident.getD "" = ""
      · rw [if_pos h1]; exact ⟨_, rfl⟩
      · rw [if_neg h1]
        by_cases h2 : form.category.getD "" = ""
        · rw [if_pos h2]; exact ⟨_, rfl⟩
        · rw [if_neg h2]
          by_cases h3 : form.description_of_incident.getD "" = ""
          · rw [if_pos h3]; exact ⟨_, rfl⟩
          · rw [if_neg h3, if_pos himp]; exact ⟨_, rfl⟩
    obtain ⟨m, hm⟩ := hreq
    exact ⟨m, by simp [create_log_record, hm]⟩
  · intro hreq himp
    have hp : parseStrArray (form.impact_types.getD "") = some [] := by
      rw [himp]
      decide
    refine ⟨?_, rfl, rfl⟩
    simp only [create_log_record, hreq, hp]
    rw [processFiles]
    rfl

/-- C8 witness: both halves at concrete inputs — the empty-string
`impact_types` is rejected leaving the state untouched, and the `"[]"`
payload creates record 1 with `impact_types` stored as `"[]"`. -/
theorem impact_types_presence_witness :
    (∃ m, create_log_record sysEmpty { formStd with impact_types := some "" } [] envStd =
      (.badRequest m, sysEmpty)) ∧
    create_log_record sysEmpty formEmptyImpact [] envStd =
      (.created 1, ⟨(createStart sysEmpty formEmptyImpact [] envStd).db, sysEmpty.disk⟩) := by
  constructor
  · exact (impact_types_presence sysEmpty { formStd with impact_types := some "" } []
      envStd).1 (Or.inr rfl)
  · exact ((impact_types_presence sysEmpty formEmptyImpact [] envStd).2
      (by decide) rfl).1

/-- C1 counterexample: a create request whose `files` hold `.pdf`
(accepted by `allowed_file`, but sanitized by `secure_filename` to `pdf`,
which has no dot) followed by the disallowed `x.exe` fails with the
catch-all **500**, not BadRequest: the `IndexError` from
`secured_filename.rsplit('.', 1)[1]` fires before the extension
`ValueError` is reached.  The state still rolls back completely. -/
theorem bad_extension_dotfile_500 :
    create_log_record sysEmpty formStd
      [⟨".pdf", "application/pdf", 3⟩, ⟨"x.exe", "application/x-msdownload", 1⟩]
      envStd = (.serverError, sysEmpty) := by decide

/-- C1 amended: a create request containing a file part with a
non-empty filename that `allowed_file` rejects (no dot, or a disallowed
extension) never creates the record: the database is unchanged (so no
LogRecord row and no Attachment row from the request), no file written
during the request remains on disk, and the result is not 201; it is
BadRequest whenever every earlier non-empty accepted part's sanitized
filename still contains a dot (otherwise the `IndexError` path yields 500,
see the counterexample). -/
theorem bad_extension_request_atomic (sys : Sys) (form : FormData)
    (files : List FilePart) (env : Env)
    (hbad : ∃ f, f ∈ files ∧ fileFails f = true) :
    (create_log_record sys form files env).2.db = sys.db ∧
    (create_log_record sys form files env).2.disk ⊆ sys.disk ∧
    (∀ r, (create_log_record sys form files env).1 ≠ .created r) ∧
    (requiredFieldsCheck form = none →
      ∀ l, parseStrArray (form.impact_types.getD "") = some l →
      (∀ f, f ∈ files.takeWhile (fun g => !(fileFails g)) → f.filename ≠ "" →
        (secure_filename f.filename).data.contains '.' = true) →
      ∃ m, (create_log_record sys form files env).1 = .badRequest m) := by
  cases hr : requiredFieldsCheck form with
  | some msg =>
    refine ⟨by simp [create_log_record, hr], ?_, ?_, ?_⟩
    · simp only [create_log_record, hr]
      exact fun x hx => hx
    · intro r h
      simp only [create_log_record, hr] at h
      cases h
    · intro hn
      exact Option.noConfusion hn
  | none =>
    cases hp : parseStrArray (form.impact_types.getD "") with
    | none =>
      refine ⟨by simp [create_log_record, hr, hp], ?_, ?_, ?_⟩
      · simp only [create_log_record, hr, hp]
        exact fun x hx => hx
      · intro r h
        simp only [create_log_record, hr, hp] at h
        cases h
      · intro _ l hl
        exact absurd hl (by simp)
    | some impact =>
      have herr := processFiles_some_of_fails sys.db.next_log_id
        "File type not allowed for: " env files (createStart sys form impact env) hbad
      have hsub := processFiles_cleanup_subset sys.db.next_log_id
        "File type not allowed for: " env files (createStart sys form impact env)
      simp only [create_log_record, hr, hp]
      cases hpf : processFiles sys.db.next_log_id "File type not allowed for: " env
          files (createStart sys form impact env) with
      | mk st err =>
        rw [hpf] at herr hsub
        have hsub2 : cleanupDisk st.disk st.saved ⊆ sys.disk := by
          have h2 := hsub
          rw [show (createStart sys form impact env).disk = sys.disk from rfl,
            show (createStart sys form impact env).saved = [] from rfl,
            cleanupDisk_nil] at h2
          exact h2
        cases err with
        | none => exact absurd rfl herr
        | some e =>
          cases e with
          | valErr m =>
            refine ⟨rfl, hsub2, ?_, ?_⟩
            · intro r h
              cases h
            · intro _ l hl hclean
              exact ⟨m, rfl⟩
          | idxErr =>
            refine ⟨rfl, hsub2, ?_, ?_⟩
            · intro r h
              cases h
            · intro _ l hl hclean
              obtain ⟨m, hm⟩ := processFiles_valErr_of_clean_lead sys.db.next_log_id
                "File type not allowed for: " env files (createStart sys form impact env)
                hbad hclean
              rw [hpf] at hm
              simp at hm

/-- C1 witness: a valid `a.txt` followed by the disallowed `x.exe`:
the database is untouched, nothing survives on disk, and the request is
BadRequest. -/
theorem bad_extension_request_atomic_witness :
    (create_log_record sysEmpty formStd
      [⟨"a.txt", "text/plain", 1⟩, ⟨"x.exe", "application/x-msdownload", 1⟩]
      envStd).2.db = sysEmpty.db ∧
    (∃ m, (create_log_record sysEmpty formStd
      [⟨"a.txt", "text/plain", 1⟩, ⟨"x.exe", "application/x-msdownload", 1⟩]
      envStd).1 = .badRequest m) := by
  have h := bad_extension_request_atomic sysEmpty formStd
    [⟨"a.txt", "text/plain", 1⟩, ⟨"x.exe", "application/x-msdownload", 1⟩] envStd
    ⟨⟨"x.exe", "application/x-msdownload", 1⟩, by decide, by decide⟩
  exact ⟨h.1, h.2.2.2 (by decide) ["financial"] (by decide) (by decide)⟩

theorem dumpsStrArray_ne_empty (l : List String) : ¬ dumpsStrArray l = "" := by
  cases l with
  | nil => decide
  | cons s rest =>
    intro h
    have h2 := congrArg String.data h
    simp [dumpsStrArray] at h2



/-- C2 counterexample: create with `supporting_evidence_snippet` equal
to the four-character string `"null"`, then get: the returned field is JSON
`null`, not the string `"null"` — the handler rewrites the value
(`if supporting_evidence_snippet == 'null': ... = None`), so the fields do
not all equal the input. -/
theorem create_get_null_snippet :
    formNullSnippet.supporting_evidence_snippet = some "null" ∧
    (create_log_record sysEmpty formNullSnippet [] envStd).1 = .created 1 ∧
    get_log_record_by_id (create_log_record sysEmpty formNullSnippet [] envStd).2.db 1 =
      .ok [("id", .n 1), ("date_of_incident", .s "2025-01-10"),
           ("time_of_incident", .null), ("category", .s "A"),
           ("description_of_incident", .s "desc"),
           ("impact_types", .arr ["financial"]), ("impact_details", .null),
           ("supporting_evidence_snippet", JVal.null),
           ("exhibit_reference", .null), ("created_at", .s "ts0")] ∧
    JVal.null ≠ JVal.s "null" := by decide

/-- C2 amended: for every valid record payload, create followed by get
on the returned id yields exactly the input fields — `impact_types`
round-tripping through serialize/parse as the same list in the same order —
except that a `supporting_evidence_snippet` equal to the literal string
`"null"` comes back as null (`normNullStr`); every other value, including
every other optional field, is returned unchanged. -/
theorem create_get_roundtrip (sys : Sys) (form : FormData) (env : Env)
    (d c ds its : String) (l : List String)
    (hd0 : form.date_of_incident = some d) (hd : d ≠ "")
    (hc0 : form.category = some c) (hc : c ≠ "")
    (hds0 : form.description_of_incident = some ds) (hds : ds ≠ "")
    (hits0 : form.impact_types = some its) (hits : its ≠ "")
    (hparse : parseStrArray its = some l)
    (hfresh : ∀ r, r ∈ sys.db.log_records → r.id ≠ sys.db.next_log_id) :
    (create_log_record sys form [] env).1 = .created sys.db.next_log_id ∧
    get_log_record_by_id (create_log_record sys form [] env).2.db
        sys.db.next_log_id =
      .ok [("id", .n sys.db.next_log_id), ("date_of_incident", .s d),
           ("time_of_incident", optJ form.time_of_incident), ("category", .s c),
           ("description_of_incident", .s ds), ("impact_types", .arr l),
           ("impact_details", optJ form.impact_details),
           ("supporting_evidence_snippet", optJ (normNullStr form.supporting_evidence_snippet)),
           ("exhibit_reference", optJ form.exhibit_reference),
           ("created_at", .s env.now)] := by
  have hreq : requiredFieldsCheck form = none := by
    simp [requiredFieldsCheck, hd0, hc0, hds0, hits0, hd, hc, hds, hits]
  have hp : parseStrArray (form.impact_types.getD "") = some l := by
    rw [hits0]
    exact hparse
  have hcreate : create_log_record sys form [] env =
      (.created sys.db.next_log_id, ⟨(createStart sys form l env).db, sys.disk⟩) := by
    simp only [create_log_record, hreq, hp]
    rw [processFiles]
    rfl
  refine ⟨by rw [hcreate], ?_⟩
  rw [hcreate]
  show get_log_record_by_id (createStart sys form l env).db sys.db.next_log_id = _
  have hnone : sys.db.log_records.find?
      (fun r => r.id = sys.db.next_log_id) = none := by
    rw [List.find?_eq_none]
    intro x hx
    simp [hfresh x hx]
  have hfind : (createStart sys form l env).db.log_records.find?
      (fun r => r.id = sys.db.next_log_id) =
      some (draftRow form l sys.db.next_log_id env.now) := by
    rw [show (createStart sys form l env).db.log_records =
        sys.db.log_records ++ [draftRow form l sys.db.next_log_id env.now] from rfl,
      List.find?_append, hnone]
    simp [List.find?_cons, draftRow]
  simp only [get_log_record_by_id, hfind]
  simp [recordDict, draftRow, dumpsStrArray_ne_empty, parse_dumps,
    hd0, hc0, hds0]

/-- C2 witness: the amended round trip at a concrete payload with every
field populated (and a snippet that is not the string `"null"`). -/
theorem create_get_roundtrip_witness :
    (create_log_record sysEmpty
      ⟨some "2025-01-10", some "10:00", some "A", some "desc",
        some "[\"financial\", \"legal\"]", some "det", some "snip", some "ex"⟩
      [] envStd).1 = .created 1 ∧
    get_log_record_by_id (create_log_record sysEmpty
      ⟨some "2025-01-10", some "10:00", some "A", some "desc",
        some "[\"financial\", \"legal\"]", some "det", some "snip", some "ex"⟩
      [] envStd).2.db 1 =
      .ok [("id", .n 1), ("date_of_incident", .s "2025-01-10"),
           ("time_of_incident", .s "10:00"), ("category", .s "A"),
           ("description_of_incident", .s "desc"),
           ("impact_types", .arr ["financial", "legal"]),
           ("impact_details", .s "det"),
           ("supporting_evidence_snippet", .s "snip"),
           ("exhibit_reference", .s "ex"), ("created_at", .s "ts0")] := by
  have h := create_get_roundtrip sysEmpty
    ⟨some "2025-01-10", some "10:00", some "A", some "desc",
      some "[\"financial\", \"legal\"]", some "det", some "snip", some "ex"⟩
    envStd "2025-01-10" "A" "desc" "[\"financial\", \"legal\"]"
    ["financial", "legal"] rfl (by decide) rfl (by decide) rfl (by decide) rfl
    (by decide) (by decide) (by intro r hr; exact absurd hr (List.not_mem_nil r))
  exact h

theorem find?_replace_map (logId : Nat) (g : LogRecordRow → LogRecordRow)
    (hg : ∀ r, (g r).id = r.id) :
    ∀ (l : List LogRecordRow) (r0 : LogRecordRow),
      l.find? (fun r => r.id = logId) = some r0 →
      (l.map (fun r => if r.id = logId then g r else r)).find?
        (fun r => r.id = logId) = some (g r0)
  | [], r0, h => by simp at h
  | r :: rs, r0, h => by
    rw [List.find?_cons] at h
    by_cases hid : r.id = logId
    · have hp2 : (decide (r.id = logId)) = true := by simp [hid]
      rw [hp2] at h
      have hr0 : r0 = r := by simpa using h.symm
      subst hr0
      have hp3 : (decide ((g r0).id = logId)) = true := by simp [hg r0, hid]
      rw [List.map_cons, List.find?_cons, if_pos hid, hp3]
    · have hp2 : (decide (r.id = logId)) = false := by simp [hid]
      rw [hp2] at h
      have htail := find?_replace_map logId g hg rs r0 h
      rw [List.map_cons, List.find?_cons, if_neg hid, hp2]
      exact htail



/-- C3 counterexample: update record 1 with a payload whose
`supporting_evidence_snippet` is the literal string `"null"`; the update
succeeds, but the subsequent get returns null for that field, not the
string `"null"` — so `get(id)` is not `X`. -/
theorem update_null_snippet :
    formNullSnippet.supporting_evidence_snippet = some "null" ∧
    (update_log_record sysPre 1 formNullSnippet [] envStd).1 = .updated ∧
    get_log_record_by_id (update_log_record sysPre 1 formNullSnippet [] envStd).2.db 1 =
      .ok [("id", .n 1), ("date_of_incident", .s "2025-01-10"),
           ("time_of_incident", .null), ("category", .s "A"),
           ("description_of_incident", .s "desc"),
           ("impact_types", .arr ["financial"]), ("impact_details", .null),
           ("supporting_evidence_snippet", JVal.null),
           ("exhibit_reference", .null), ("created_at", .s "ts-1")] ∧
    JVal.null ≠ JVal.s "null" := by decide

/-- C3 amended: `update(id, X)` fails with NotFound when the id is
absent; when the id is present it succeeds — also when the new values equal
the old (a no-op update is not an error) — and performs a full replace of
every mutable field regardless of the pre-update state, so that `get(id)`
returns exactly the fields of X, with the one normalization that a
`supporting_evidence_snippet` equal to the literal string `"null"` is
stored and returned as null; id and `created_at` keep their pre-update
values. -/
theorem update_full_replace (sys : Sys) (logId : Nat) (form : FormData) (env : Env)
    (d c ds its : String) (l : List String)
    (hd0 : form.date_of_incident = some d) (hd : d ≠ "")
    (hc0 : form.category = some c) (hc : c ≠ "")
    (hds0 : form.description_of_incident = some ds) (hds : ds ≠ "")
    (hits0 : form.impact_types = some its) (hits : its ≠ "")
    (hparse : parseStrArray its = some l) :
    ((∀ r, r ∈ sys.db.log_records → r.id ≠ logId) →
      update_log_record sys logId form [] env = (.notFound, sys)) ∧
    (∀ r0, sys.db.log_records.find? (fun r => r.id = logId) = some r0 →
      (update_log_record sys logId form [] env).1 = .updated ∧
      get_log_record_by_id (update_log_record sys logId form [] env).2.db logId =
        .ok [("id", .n logId), ("date_of_incident", .s d),
             ("time_of_incident", optJ form.time_of_incident), ("category", .s c),
             ("description_of_incident", .s ds), ("impact_types", .arr l),
             ("impact_details", optJ form.impact_details),
             ("supporting_evidence_snippet", optJ (normNullStr form.supporting_evidence_snippet)),
             ("exhibit_reference", optJ form.exhibit_reference),
             ("created_at", .s r0.created_at)]) := by
  have hreq : requiredFieldsCheck form = none := by
    simp [requiredFieldsCheck, hd0, hc0, hds0, hits0, hd, hc, hds, hits]
  have hp : parseStrArray (form.impact_types.getD "") = some l := by
    rw [hits0]
    exact hparse
  constructor
  · intro habsent
    have hany : sys.db.log_records.any (fun r => r.id = logId) = false := by
      rw [List.any_eq_false]
      intro x hx
      simp [habsent x hx]
    simp [update_log_record, hany]
  · intro r0 hfind
    have hid : r0.id = logId := by
      have h1 := List.find?_some hfind
      simpa using h1
    have hany : sys.db.log_records.any (fun r => r.id = logId) = true := by
      rw [List.any_eq_true]
      exact ⟨r0, List.mem_of_find?_eq_some hfind, by simp [hid]⟩
    have hupd : update_log_record sys logId form [] env =
        (.updated, ⟨(updateStart sys logId form l).db, sys.disk⟩) := by
      simp only [update_log_record, hany, Bool.not_true, Bool.false_eq_true, if_false,
        hreq, hp]
      rw [processFiles]
      rfl
    refine ⟨by rw [hupd], ?_⟩
    rw [hupd]
    show get_log_record_by_id (updateStart sys logId form l).db logId = _
    have hfind2 : (updateStart sys logId form l).db.log_records.find?
        (fun r => r.id = logId) = some (replaceRow form l r0) := by
      rw [show (updateStart sys logId form l).db.log_records =
          sys.db.log_records.map (fun r =>
            if r.id = logId then replaceRow form l r else r) from rfl]
      exact find?_replace_map logId (replaceRow form l) (fun r => rfl)
        sys.db.log_records r0 hfind
    simp only [get_log_record_by_id, hfind2]
    simp [recordDict, replaceRow, dumpsStrArray_ne_empty, parse_dumps,
      hd0, hc0, hds0, hid]

/-- C3 witness: NotFound on the empty database, and a concrete full
replace of `rowPre` whose fields all come back equal to the new payload. -/
theorem update_full_replace_witness :
    update_log_record sysEmpty 1 formStd [] envStd = (.notFound, sysEmpty) ∧
    (update_log_record sysPre 1 formStd [] envStd).1 = .updated ∧
    get_log_record_by_id (update_log_record sysPre 1 formStd [] envStd).2.db 1 =
      .ok [("id", .n 1), ("date_of_incident", .s "2025-01-10"),
           ("time_of_incident", JVal.null), ("category", .s "A"),
           ("description_of_incident", .s "desc"),
           ("impact_types", .arr ["financial"]), ("impact_details", JVal.null),
           ("supporting_evidence_snippet", JVal.null),
           ("exhibit_reference", JVal.null), ("created_at", .s "ts-1")] := by
  have h1 := (update_full_replace sysEmpty 1 formStd envStd "2025-01-10" "A" "desc"
    "[\"financial\"]" ["financial"] rfl (by decide) rfl (by decide) rfl (by decide)
    rfl (by decide) (by decide)).1
    (by intro r hr; exact absurd hr (List.not_mem_nil r))
  have h2 := (update_full_replace sysPre 1 formStd envStd "2025-01-10" "A" "desc"
    "[\"financial\"]" ["financial"] rfl (by decide) rfl (by decide) rfl (by decide)
    rfl (by decide) (by decide)).2 rowPre (by decide)
  exact ⟨h1, h2.1, h2.2⟩

/-- C4: `delete(id)` on an absent id is NotFound with nothing changed
(the attachment DELETE is rolled back); on a present id it removes the
record row, every attachment row referencing it, and every corresponding
physical file, after which `get(id)` is NotFound and `list_for_record(id)`
is empty. -/
theorem delete_cascades (sys : Sys) (logId : Nat) :
    ((∀ r, r ∈ sys.db.log_records → r.id ≠ logId) →
      delete_log_record sys logId = (.notFound, sys)) ∧
    ((∃ r, r ∈ sys.db.log_records ∧ r.id = logId) →
      (delete_log_record sys logId).1 = .deleted ∧
      (∀ r, r ∈ (delete_log_record sys logId).2.db.log_records → r.id ≠ logId) ∧
      get_log_record_attachments (delete_log_record sys logId).2.db logId = [] ∧
      (∀ a, a ∈ sys.db.attachments → a.log_record_id = logId →
        attFullPath a ∉ (delete_log_record sys logId).2.disk) ∧
      get_log_record_by_id (delete_log_record sys logId).2.db logId = .notFound) := by
  constructor
  · intro habsent
    have hany : sys.db.log_records.any (fun r => r.id = logId) = false := by
      rw [List.any_eq_false]
      intro x hx
      simp [habsent x hx]
    simp [delete_log_record, hany]
  · intro hpresent
    obtain ⟨rp, hrp, hrpid⟩ := hpresent
    have hany : sys.db.log_records.any (fun r => r.id = logId) = true := by
      rw [List.any_eq_true]
      exact ⟨rp, hrp, by simp [hrpid]⟩
    have hdel : delete_log_record sys logId =
        (.deleted,
          ⟨{ sys.db with
              log_records := sys.db.log_records.filter (fun r => !(r.id = logId)),
              attachments :=
                sys.db.attachments.filter (fun a => !(a.log_record_id = logId)) },
            sys.disk.filter (fun q =>
              !((sys.db.attachments.filter (fun a => a.log_record_id = logId)).any
                (fun a => attFullPath a = q)))⟩) := by
      simp only [delete_log_record]
      rw [if_pos hany]
    rw [hdel]
    refine ⟨rfl, ?_, ?_, ?_, ?_⟩
    · intro r hr
      have h2 := (List.mem_filter.mp hr).2
      simpa using h2
    · rw [show get_log_record_attachments
          { sys.db with
            log_records := sys.db.log_records.filter (fun r => !(r.id = logId)),
            attachments :=
              sys.db.attachments.filter (fun a => !(a.log_record_id = logId)) } logId =
          (sys.db.attachments.filter (fun a => !(a.log_record_id = logId))).filter
            (fun a => a.log_record_id = logId) from rfl]
      rw [List.filter_eq_nil_iff]
      intro a ha
      have h2 := (List.mem_filter.mp ha).2
      simpa using h2
    · intro a ha haid hmem
      have h2 := (List.mem_filter.mp hmem).2
      have h3 : (sys.db.attachments.filter
          (fun a => a.log_record_id = logId)).any
          (fun b => attFullPath b = attFullPath a) = true := by
        rw [List.any_eq_true]
        exact ⟨a, List.mem_filter.mpr ⟨ha, by simp [haid]⟩, by simp⟩
      rw [h3] at h2
      exact Bool.false_ne_true h2
    · have hnone : (sys.db.log_records.filter (fun r => !(r.id = logId))).find?
          (fun r => r.id = logId) = none := by
        rw [List.find?_eq_none]
        intro x hx
        have h2 := (List.mem_filter.mp hx).2
        simpa using h2
      simp [get_log_record_by_id, hnone]



/-- C4 witness: deleting record 1 in the scenario state (one record,
one attachment, its file on disk) removes the row, the listing, and the
physical file; deleting in the empty state is NotFound. -/
theorem delete_cascades_witness :
    (delete_log_record sysScenario 1).1 = .deleted ∧
    get_log_record_attachments (delete_log_record sysScenario 1).2.db 1 = [] ∧
    get_log_record_by_id (delete_log_record sysScenario 1).2.db 1 = .notFound ∧
    attFullPath attScenario ∉ (delete_log_record sysScenario 1).2.disk ∧
    delete_log_record sysEmpty 1 = (.notFound, sysEmpty) := by
  have h := (delete_cascades sysScenario 1).2
    ⟨⟨1, "2025-01-10", none, "A", "desc", "[\"financial\"]", none, none, none, "ts0"⟩,
      by decide, rfl⟩
  have h0 := (delete_cascades sysEmpty 1).1
    (by intro r hr; exact absurd hr (List.not_mem_nil r))
  exact ⟨h.1, h.2.2.1, h.2.2.2.2, h.2.2.2.1 attScenario (by decide) rfl, h0⟩

theorem renderRows_eq_some (db : DB) :
    ∀ (rows : List LogRecordRow) (bodies : List (List (String × JVal))),
      renderRows db rows = some bodies →
      List.Forall₂ (fun r body => listedDict db r = some body) rows bodies
  | [], bodies, h => by
    rw [renderRows] at h
    have hb : bodies = [] := by simpa using h.symm
    subst hb
    exact List.Forall₂.nil
  | r :: rs, bodies, h => by
    rw [renderRows] at h
    cases hld : listedDict db r with
    | none => rw [hld] at h; simp at h
    | some b =>
      cases hrr : renderRows db rs with
      | none => rw [hld, hrr] at h; simp at h
      | some bs =>
        rw [hld, hrr] at h
        have hb : bodies = b :: bs := by simpa using h.symm
        subst hb
        exact List.Forall₂.cons hld (renderRows_eq_some db rs bs hrr)

theorem get_log_records_ok_inv (db : DB) (p : ListParams)
    (bodies : List (List (String × JVal)))
    (hok : get_log_records db p = .ok bodies) :
    renderRows db (listQueryRows db p (p.sort_by.getD "date_of_incident")
      (upperStr (p.sort_order.getD "desc") = "DESC")) = some bodies := by
  simp only [get_log_records] at hok
  split at hok
  · cases hok
  · split at hok
    · cases hok
    · split at hok
      next bodies2 heq =>
        cases hok
        exact heq
      next heq => cases hok

/-- C5: a `sort_by` outside `{date_of_incident, category, created_at}`
is rejected with BadRequest before any query executes (the response does not
depend on the database at all); `sort_order` is restricted to asc/desc —
any other value is BadRequest — with descending as the default when the
parameter is absent; and every accepted request returns exactly the
filtered rows ordered by the chosen column in the chosen direction, ties
broken by `created_at` descending. -/
theorem list_sort_validated (db : DB) (p : ListParams) :
    ((p.sort_by.getD "date_of_incident") ∉ valid_sort_columns →
      get_log_records db p =
        .badRequest ("Invalid sort_by column: " ++ (p.sort_by.getD "date_of_incident")) ∧
      ∀ db2, get_log_records db2 p = get_log_records db p) ∧
    ((p.sort_by.getD "date_of_incident") ∈ valid_sort_columns →
      upperStr (p.sort_order.getD "desc") ≠ "ASC" →
      upperStr (p.sort_order.getD "desc") ≠ "DESC" →
      get_log_records db p =
        .badRequest ("Invalid sort_order: " ++ upperStr (p.sort_order.getD "desc"))) ∧
    (get_log_records db { p with sort_order := none } =
      get_log_records db { p with sort_order := some "desc" }) ∧
    (∀ bodies, get_log_records db p = .ok bodies →
      List.Perm (listQueryRows db p (p.sort_by.getD "date_of_incident")
          (upperStr (p.sort_order.getD "desc") = "DESC"))
        (db.log_records.filter (passesFilters p)) ∧
      (listQueryRows db p (p.sort_by.getD "date_of_incident")
          (upperStr (p.sort_order.getD "desc") = "DESC")).Pairwise
        (fun a b => rowLe (p.sort_by.getD "date_of_incident")
          (upperStr (p.sort_order.getD "desc") = "DESC") a b = true) ∧
      List.Forall₂ (fun r body => listedDict db r = some body)
        (listQueryRows db p (p.sort_by.getD "date_of_incident")
          (upperStr (p.sort_order.getD "desc") = "DESC")) bodies) := by
  refine ⟨?_, ?_, ?_, ?_⟩
  · intro hinv
    have hmsg : ∀ db0 : DB, get_log_records db0 p =
        .badRequest ("Invalid sort_by column: " ++ (p.sort_by.getD "date_of_incident")) := by
      intro db0
      simp only [get_log_records]
      rw [if_pos (by simp [hinv])]
    exact ⟨hmsg db, fun db2 => (hmsg db2).trans (hmsg db).symm⟩
  · intro hval ha hd
    simp only [get_log_records]
    rw [if_neg (by simp [hval]), if_pos (by simp [ha, hd])]
  · rfl
  · intro bodies hok
    have h2 := get_log_records_ok_inv db p bodies hok
    exact ⟨sortRows_perm _ _,
      sortRows_pairwise _ (rowLe_total _ _) (rowLe_trans _ _) _,
      renderRows_eq_some db _ bodies h2⟩

/-- C5 witness: the validation, default, and ordering at concrete
inputs: a bogus `sort_by` is rejected identically on two different
databases; `sort_order=up` is rejected; omitting `sort_order` equals
passing `desc`; and the accepted default query on the scenario state is an
ordered permutation of the filtered rows. -/
theorem list_sort_validated_witness :
    get_log_records sysEmpty.db ⟨none, none, none, some "bogus", none⟩ =
      .badRequest "Invalid sort_by column: bogus" ∧
    get_log_records sysScenario.db ⟨none, none, none, some "bogus", none⟩ =
      get_log_records sysEmpty.db ⟨none, none, none, some "bogus", none⟩ ∧
    get_log_records sysEmpty.db ⟨none, none, none, none, some "up"⟩ =
      .badRequest "Invalid sort_order: UP" ∧
    get_log_records sysScenario.db ⟨none, none, none, none, none⟩ =
      get_log_records sysScenario.db ⟨none, none, none, none, some "desc"⟩ ∧
    List.Perm (listQueryRows sysScenario.db ⟨none, none, none, none, none⟩
        "date_of_incident" true)
      (sysScenario.db.log_records.filter
        (passesFilters ⟨none, none, none, none, none⟩)) ∧
    (listQueryRows sysScenario.db ⟨none, none, none, none, none⟩
        "date_of_incident" true).Pairwise
      (fun a b => rowLe "date_of_incident" true a b = true) := by
  have h1 := (list_sort_validated sysEmpty.db ⟨none, none, none, some "bogus", none⟩).1
    (by decide)
  have h1b := (list_sort_validated sysScenario.db
    ⟨none, none, none, some "bogus", none⟩).1 (by decide)
  have h2 := (list_sort_validated sysEmpty.db ⟨none, none, none, none, some "up"⟩).2.1
    (by decide) (by decide) (by decide)
  have h3 := (list_sort_validated sysScenario.db
    ⟨none, none, none, none, (none : Option String)⟩).2.2.1
  have h4 := (list_sort_validated sysScenario.db
    ⟨none, none, none, none, none⟩).2.2.2
    [dictScenario ++ [("attachment_count", .n 1)]] (by decide)
  exact ⟨h1.1, h1b.2 sysEmpty.db, h2, h3, h4.1, h4.2.1⟩

end TrustLog
